import Mathlib

/-!
Verification of the job-queue / worker-pool / progress-aggregation /
cancellation core of the script-generator service.

The embedding follows the Python source:
* `app/services/task_queue.py` — `worker_process`, the global queue, the
  per-request event queues, the status dictionary and the progress step;
* `app/api/stream_router.py` — `process_prompts_with_runninghub` (batch
  submission) and `cancel_runninghub_task_route` (batch cancellation);
* `app/utils/runninghub_api.py` — the provider constants
  (`MAX_CONCURRENT_TASKS`, the success status list).

Dictionaries become association lists over `String` keys (Python dict keys
are unique, which appears as `Nodup` hypotheses where needed), the asyncio
queue becomes a `List` used FIFO (head = front), SSE events become an
inductive type carrying the fields the route code puts into the JSON
payload (the purely cosmetic `message` / `worker_id` fields are not
modelled).  External I/O (the HTTP calls to RunningHub) is represented by
its observable result: `CreateResult` for `call_runninghub_workflow` and a
final status string for `wait_for_task_completion`.
-/

namespace ScriptGen

/-- Job states as stored in `global_tasks_status[...]["status"]`
(`task_queue.py` lines 108, 132, 179, 323, 358 and
`stream_router.py` lines 1014, 1460). -/
inductive JStatus where
  | queued
  | processing
  | waiting
  | completed
  | error
  | cancelled
deriving DecidableEq, Repr

/-- The `task_data` dictionary built at submission
(`stream_router.py` lines 986-993). -/
structure TaskData where
  episode : String
  episode_key : String
  scene : String
  scene_key : String
  prompt_index : Nat
  prompt : String
deriving DecidableEq, Repr

/-- Python's `str()` rendering of the `task_data` dictionary, used by the
cancel route's substring test `str(task_info["task_data"]).find(request_id)`
(`stream_router.py` line 1376). -/
def pyStr (td : TaskData) : String :=
  "\x7b'episode': '" ++ td.episode ++ "', 'episode_key': '" ++ td.episode_key ++
  "', 'scene': '" ++ td.scene ++ "', 'scene_key': '" ++ td.scene_key ++
  "', 'prompt_index': " ++ toString td.prompt_index ++
  ", 'prompt': '" ++ td.prompt ++ "'\x7d"

/-- One entry of `global_tasks_status`. -/
structure TaskInfo where
  status : JStatus
  request_id : String
  task_data : TaskData
  runninghub_task_id : Option String
deriving DecidableEq, Repr

/-- One item of `global_task_queue` (`stream_router.py` lines 1003-1008,
`task_queue.py` lines 208-214). -/
structure QueueItem where
  request_id : String
  task_data : TaskData
  added_time : Nat
  subtask_id : String
  retry_after_queue_full : Bool
deriving DecidableEq, Repr

/-- The SSE events put on a request's event queue, with the payload fields
the claims inspect (`format_sse_event` call sites in `task_queue.py` and
`stream_router.py`). -/
inductive Event where
  | status_evt (task_id : String) (st : String)
  | task_waiting (episode scene : String) (prompt_index : Nat) (task_id : String)
      (retry max_retries wait_seconds : Nat)
  | task_created (episode scene : String) (prompt_index : Nat) (task_id : String)
      (runninghub_task_id : Option String)
  | subtask_completed (episode scene : String) (prompt_index : Nat) (task_id : String)
      (runninghub_task_id : Option String) (status : String)
  | task_error (episode scene : String) (prompt_index : Nat) (task_id : String)
      (error_msg : String)
  | task_cancelled (task_id : String)
  | task_requeued (episode scene : String) (prompt_index : Nat) (task_id : String)
  | progress (completed total waiting percentage : Nat)
  | all_tasks_completed (request_id : String) (completed total : Nat)
  | cancel_complete (request_id : String) (cancelled_count : Nat)
  | complete (request_id : String)
deriving DecidableEq, Repr

/-- `global_request_metadata[request_id]`
(`stream_router.py` lines 1041-1045). -/
structure BatchMeta where
  total_tasks : Nat
  task_ids : List String
deriving DecidableEq, Repr

/-- The process-wide mutable state of the core: the global queue, the
per-request event queues, the status dictionary, the request metadata and
the `global_runninghub_tasks` map (which also carries the
`"CANCELLED_REQUEST"` cancellation marker). -/
structure SysState where
  queue : List QueueItem
  channels : List (String × List Event)
  statuses : List (String × TaskInfo)
  metadata : List (String × BatchMeta)
  runninghub_tasks : List (String × List String)
deriving DecidableEq, Repr

/-- Dictionary lookup on an association list (first matching key wins, as
in a Python dict, whose keys are unique). -/
def getA {α : Type} : List (String × α) → String → Option α
  | [], _ => none
  | (k', v) :: t, k => if k' = k then some v else getA t k

/-- Dictionary assignment `d[k] = v`: replace the first binding of `k`, or
append a fresh binding. -/
def setA {α : Type} : List (String × α) → String → α → List (String × α)
  | [], k, v => [(k, v)]
  | (k', v') :: t, k, v => if k' = k then (k, v) :: t else (k', v') :: setA t k v

/-- Substring test, Python's `s.find(pat) != -1`, stated on the character
lists so that concrete instances compute. -/
def strContains (s pat : String) : Bool := decide (pat.data <:+: s.data)

/-- Prefix test, Python's `s.startswith(pre)`, stated on the character
lists so that concrete instances compute. -/
def strStartsWith (s pre : String) : Bool := decide (pre.data <+: s.data)

/-- `event_queue.put(...)` guarded by `request_id in global_event_queues`
(as in `stream_router.py` lines 1468-1473 and 1529): append the event to the
request's channel when that channel is registered, otherwise drop it. -/
def putEvent (s : SysState) (rid : String) (e : Event) : SysState :=
  match getA s.channels rid with
  | some q => { s with channels := setA s.channels rid (q ++ [e]) }
  | none => s

/-- `global_tasks_status[sid] = info`. -/
def setStatus (s : SysState) (sid : String) (info : TaskInfo) : SysState :=
  { s with statuses := setA s.statuses sid info }

/-- Worker-pool size, `MAX_CONCURRENT_TASKS` (`runninghub_api.py` line 17). -/
def maxConcurrentTasks : Nat := 3

/-- `max_retries` of the capacity-exceeded retry loop
(`task_queue.py` line 160). -/
def maxRetries : Nat := 10

/-- `retry_delay`, the base backoff of 30 seconds (`task_queue.py` line 162). -/
def retryDelay : Nat := 30

/-- Backoff before a capacity-exceeded retry:
`wait_time = min(retry_delay * retry_count, 300)` (`task_queue.py` line 176). -/
def waitTime (retry_count : Nat) : Nat := min (retryDelay * retry_count) 300

/-- Delay stamped on a job requeued after exhausting the retries:
`time.time() + 600` (`task_queue.py` line 211). -/
def requeueDelay : Nat := 600

/-! ## The batch-cancel route (`stream_router.py`, `cancel_runninghub_task_route`)

The remote best-effort `cancel_runninghub_task` HTTP calls and the
`cancelled_task_ids` bookkeeping they feed are external I/O with no effect
on the state components modelled here; the route's effects on the queue,
the status dictionary, the cancellation marker and the event channels are
modelled exactly. -/

/-- Relatedness test of the cancel route (`stream_router.py` lines
1361-1383): a tracked task matches the cancelled `request_id` when its
subtask id starts with it, its own request id equals it, the `str()` of
its `task_data` contains it, or (for ids longer than 8) the subtask id or
request id contains it. -/
def relatedTask (rid sid : String) (info : TaskInfo) : Bool :=
  strStartsWith sid rid
  || info.request_id == rid
  || strContains (pyStr info.task_data) rid
  || (decide (8 < rid.length) &&
      (strContains sid rid || strContains info.request_id rid))

/-- `tasks_to_cancel`: the ids of all tracked tasks matching the
relatedness test, in dictionary order (`stream_router.py` lines 1350-1388). -/
def tasksToCancel (rid : String) (statuses : List (String × TaskInfo)) : List String :=
  (statuses.filter (fun p => relatedTask rid p.1 p.2)).map Prod.fst

/-- `related_request_ids`: the owning request ids of the matched tasks,
deduplicated (`stream_router.py` lines 1446-1452; the source stores them
in a Python set, modelled as a deduplicated list). -/
def relatedRequestIds (rid : String) (s : SysState) : List String :=
  ((tasksToCancel rid s.statuses).filterMap
    (fun sid => (getA s.statuses sid).map (fun i => i.request_id))).dedup

/-- In-place update `global_tasks_status[sid]["status"] = "CANCELLED"`
(`stream_router.py` line 1460): only the status field changes. -/
def cancelInfo (info : TaskInfo) : TaskInfo := { info with status := .cancelled }

/-- One iteration of the cancel route's update loop (`stream_router.py`
lines 1456-1473): if the task is tracked, set its status to `CANCELLED`
and notify its owning request's channel. -/
def cancelOneTask (s : SysState) (sid : String) : SysState :=
  match getA s.statuses sid with
  | none => s
  | some info =>
      putEvent { s with statuses := setA s.statuses sid (cancelInfo info) }
        info.request_id (.task_cancelled sid)

/-- The whole update loop over `tasks_to_cancel`. -/
def cancelRouteTasks (s : SysState) (ttc : List String) : SysState :=
  ttc.foldl cancelOneTask s

/-- Add the `"CANCELLED_REQUEST"` marker to an entry of
`global_runninghub_tasks`, creating the (set-valued) entry if absent
(`stream_router.py` lines 1479-1483). -/
def markerUpdate (m : List (String × List String)) (rid : String) :
    List (String × List String) :=
  let cur := (getA m rid).getD []
  setA m rid (if "CANCELLED_REQUEST" ∈ cur then cur else cur ++ ["CANCELLED_REQUEST"])

/-- The marker update applied to the system state. -/
def addCancelMarker (s : SysState) (rid : String) : SysState :=
  { s with runninghub_tasks := markerUpdate s.runninghub_tasks rid }

/-- Queue-sweep keep condition (`stream_router.py` lines 1502-1504): a
queued item survives the cancel of `rid` when its subtask id is not in
`tasks_to_cancel`, its request id differs from `rid`, and its subtask id
does not start with `rid`. -/
def keepInQueue (rid : String) (ttc : List String) (t : QueueItem) : Bool :=
  !(decide (t.subtask_id ∈ ttc)) && !(t.request_id == rid) &&
    !(strStartsWith t.subtask_id rid)

/-- Drain the global queue into a temporary queue keeping only surviving
items, then pour it back (`stream_router.py` lines 1485-1521): a FIFO
filter. -/
def sweepQueue (rid : String) (ttc : List String) (q : List QueueItem) : List QueueItem :=
  q.filter (keepInQueue rid ttc)

/-- Send `cancel_complete` then `complete` to every related request's
channel (`stream_router.py` lines 1526-1549). -/
def notifyCancelled (s : SysState) (rids : List String) (cnt : Nat) : SysState :=
  rids.foldl (fun s r => putEvent (putEvent s r (.cancel_complete r cnt)) r (.complete r)) s

/-- The `/runninghub/task-cancel` route (`stream_router.py` lines
1327-1561), in source order: collect the matched tasks and the related
request ids, set every matched task to `CANCELLED` (notifying its
channel), plant the `CANCELLED_REQUEST` marker, sweep the global queue,
then push `cancel_complete` and `complete` to every related channel. -/
def cancelRoute (rid : String) (s : SysState) : SysState :=
  let ttc := tasksToCancel rid s.statuses
  let rids := relatedRequestIds rid s
  let s1 := cancelRouteTasks s ttc
  let s2 := addCancelMarker s1 rid
  let s3 := { s2 with queue := sweepQueue rid ttc s2.queue }
  notifyCancelled s3 rids ttc.length

/-! ## The worker loop (`task_queue.py`, `worker_process`) -/

/-- Check of the request-level cancellation marker
(`task_queue.py` line 128): `"CANCELLED_REQUEST" in global_runninghub_tasks[rid]`. -/
def isRequestCancelled (s : SysState) (rid : String) : Bool :=
  match getA s.runninghub_tasks rid with
  | some ids => decide ("CANCELLED_REQUEST" ∈ ids)
  | none => false

/-- Outcome of the worker's pre-processing phase on the dequeued item. -/
inductive PreOutcome where
  | emptyQueue
  | skippedNoChannel (s' : SysState)
  | deferred (s' : SysState)
  | cancelledEarly (s' : SysState)
  | proceed (item : QueueItem) (s' : SysState)
deriving Repr

/-- The worker's pre-processing phase (`task_queue.py` lines 82-150):
dequeue; if the owning request has no registered event queue, drop the
item; if the item is a delayed requeue not yet eligible, put it back at
the tail; otherwise record `PROCESSING`, emit the starting `status` event,
and then honour a pending request-level cancellation before calling the
provider. -/
def workerPre (s : SysState) (now : Nat) : PreOutcome :=
  match s.queue with
  | [] => .emptyQueue
  | item :: rest =>
      let s0 := { s with queue := rest }
      if (getA s0.channels item.request_id).isNone then
        .skippedNoChannel s0
      else if item.retry_after_queue_full && decide (now < item.added_time) then
        .deferred { s0 with queue := s0.queue ++ [item] }
      else
        let s1 := setStatus s0 item.subtask_id
          ⟨.processing, item.request_id, item.task_data, none⟩
        let s2 := putEvent s1 item.request_id (.status_evt item.subtask_id "PROCESSING")
        if isRequestCancelled s2 item.request_id then
          let s3 := setStatus s2 item.subtask_id
            ⟨.cancelled, item.request_id, item.task_data, none⟩
          .cancelledEarly (putEvent s3 item.request_id (.task_cancelled item.subtask_id))
        else
          .proceed item s2

/-- Observable outcome of one `call_runninghub_workflow` call: either the
`code 421 / TASK_QUEUE_MAXED` capacity rejection, or any other response,
abstracted to the provider task id the worker extracts from it
(`task_queue.py` lines 168-173 and 267-277). -/
inductive CreateResult where
  | queueMaxed
  | accepted (runninghub_task_id : Option String)

/-- How the create retry loop exits. -/
inductive LoopExit where
  | exhausted
  | created (runninghub_task_id : Option String)
deriving DecidableEq, Repr

/-- The capacity-exceeded retry loop (`task_queue.py` lines 166-261),
driven by the provider's response to each successive call.  Returns the
list of retry numbers for which a `task_waiting` event is emitted, and the
exit: `exhausted` after `max_retries` capacity rejections (the job is then
requeued), otherwise `created` with the extracted provider task id.  The
`fuel` argument mirrors the loop guard `retry_count < max_retries`; it
starts at `maxRetries` and cannot reach 0 before an exit is taken. -/
def createLoopAux (provider : Nat → CreateResult) (rc : Nat) : Nat → List Nat × LoopExit
  | 0 => ([], .created none)
  | fuel + 1 =>
      match provider rc with
      | .accepted tid => ([], .created tid)
      | .queueMaxed =>
          let rc' := rc + 1
          if maxRetries ≤ rc' then ([rc'], .exhausted)
          else
            let r := createLoopAux provider rc' fuel
            (rc' :: r.1, r.2)

/-- Entry point of the retry loop: `retry_count = 0`. -/
def createLoop (provider : Nat → CreateResult) : List Nat × LoopExit :=
  createLoopAux provider 0 maxRetries

/-- The `task_waiting` event of retry number `rc`
(`task_queue.py` lines 190-200): `wait_seconds` is the computed backoff. -/
def waitingEvent (item : QueueItem) (rc : Nat) : Event :=
  .task_waiting item.task_data.episode_key item.task_data.scene_key
    item.task_data.prompt_index item.subtask_id rc maxRetries (waitTime rc)

/-- Per capacity rejection: record `WAITING` in the status dictionary and
emit the `task_waiting` event (`task_queue.py` lines 179-200). -/
def emitWaits (s : SysState) (item : QueueItem) (waits : List Nat) : SysState :=
  waits.foldl
    (fun s rc =>
      putEvent (setStatus s item.subtask_id ⟨.waiting, item.request_id, item.task_data, none⟩)
        item.request_id (waitingEvent item rc))
    s

/-- The item put back on the global queue after `max_retries` capacity
rejections (`task_queue.py` lines 208-214): eligible again only after
`requeueDelay` seconds, and flagged `retry_after_queue_full`. -/
def requeueItem (item : QueueItem) (now : Nat) : QueueItem :=
  { item with added_time := now + requeueDelay, retry_after_queue_full := true }

/-- Exhaustion path (`task_queue.py` lines 204-235): requeue at the tail
and emit `task_requeued`; the job's recorded state is left at `WAITING`. -/
def exhaustedPhase (s : SysState) (item : QueueItem) (now : Nat) : SysState :=
  putEvent { s with queue := s.queue ++ [requeueItem item now] }
    item.request_id
    (.task_requeued item.task_data.episode_key item.task_data.scene_key
      item.task_data.prompt_index item.subtask_id)

/-- The provider statuses the worker treats as success
(`task_queue.py` line 319). -/
def successStatuses : List String := ["SUCCESS", "FINISHED", "COMPLETE", "COMPLETED"]

/-- The `status` field of the result payload (`task_queue.py` lines
301-319): `"FAILED"` by default, upgraded to `"SUCCESS"` only when a
provider task id was extracted and the final status is a success status. -/
def resultStatus (tid : Option String) (finalStatus : String) : String :=
  match tid with
  | none => "FAILED"
  | some _ => if finalStatus ∈ successStatuses then "SUCCESS" else "FAILED"

/-- Record an extracted provider task id into
`global_runninghub_tasks[request_id]` (`task_queue.py` lines 294-298). -/
def recordRunninghub (s : SysState) (rid : String) (tid : Option String) : SysState :=
  match tid with
  | none => s
  | some t =>
      let cur := (getA s.runninghub_tasks rid).getD []
      { s with
          runninghub_tasks :=
            setA s.runninghub_tasks rid (if t ∈ cur then cur else cur ++ [t]) }

/-- Completion path of the worker (`task_queue.py` lines 267-349): emit
`task_created`, record the provider task id, wait for the provider (its
final status is `finalStatus`), then unconditionally record the job as
`COMPLETED` — the success/failure distinction survives only in the result
payload's status — and emit `subtask_completed` with that payload status. -/
def completionPhase (s : SysState) (item : QueueItem) (tid : Option String)
    (finalStatus : String) : SysState :=
  let s1 := putEvent s item.request_id
    (.task_created item.task_data.episode_key item.task_data.scene_key
      item.task_data.prompt_index item.subtask_id tid)
  let s2 := recordRunninghub s1 item.request_id tid
  let s3 := setStatus s2 item.subtask_id ⟨.completed, item.request_id, item.task_data, tid⟩
  putEvent s3 item.request_id
    (.subtask_completed item.task_data.episode_key item.task_data.scene_key
      item.task_data.prompt_index item.subtask_id tid (resultStatus tid finalStatus))

/-- Exception path of the worker (`task_queue.py` lines 351-374): record
`ERROR` and emit `task_error`. -/
def errorPhase (s : SysState) (item : QueueItem) (msg : String) : SysState :=
  putEvent (setStatus s item.subtask_id ⟨.error, item.request_id, item.task_data, none⟩)
    item.request_id
    (.task_error item.task_data.episode_key item.task_data.scene_key
      item.task_data.prompt_index item.subtask_id msg)

/-- Is a status counted by the progress step's `completed_count`
(`task_queue.py` line 393: `status in ["COMPLETED", "ERROR"]`)? -/
def isCompletedOrError : JStatus → Bool
  | .completed => true
  | .error => true
  | _ => false

/-- The progress step's counting loop over the batch's task-id list
(`task_queue.py` lines 386-396): first component `completed_count`
(statuses `COMPLETED`/`ERROR`), second `waiting_count` (status `WAITING`);
all other statuses — including `CANCELLED` — are counted by neither. -/
def countCW (statuses : List (String × TaskInfo)) : List String → Nat × Nat
  | [] => (0, 0)
  | sid :: rest =>
      let r := countCW statuses rest
      match getA statuses sid with
      | some info =>
          if isCompletedOrError info.status then (r.1 + 1, r.2)
          else if info.status = .waiting then (r.1, r.2 + 1)
          else r
      | none => r

/-- The events the progress step pushes (`task_queue.py` lines 380-438):
a `progress` event, then `all_tasks_completed` exactly when
`completed_count == expected_total` and `waiting_count == 0`.  When the
request's metadata is missing, the fallback counts every tracked task of
the request instead (lines 417-438, with the extra nonemptiness guard). -/
def progressEmits (s : SysState) (rid : String) : List Event :=
  match getA s.metadata rid with
  | some meta =>
      let c := (countCW s.statuses meta.task_ids).1
      let w := (countCW s.statuses meta.task_ids).2
      [.progress c meta.total_tasks w
          (if meta.total_tasks = 0 then 0 else c * 100 / meta.total_tasks)] ++
        (if c = meta.total_tasks ∧ w = 0 then
          [.all_tasks_completed rid c meta.total_tasks] else [])
  | none =>
      let reqStatuses := s.statuses.filter (fun p => p.2.request_id == rid)
      let total := reqStatuses.length
      let c := (reqStatuses.filter (fun p => isCompletedOrError p.2.status)).length
      let w := (reqStatuses.filter (fun p => p.2.status = .waiting)).length
      [.progress c total w (if total = 0 then 0 else c * 100 / total)] ++
        (if c = total ∧ w = 0 ∧ 0 < total then [.all_tasks_completed rid c total] else [])

/-- The worker's `finally` progress step: push the computed events. -/
def progressPhase (s : SysState) (rid : String) : SysState :=
  (progressEmits s rid).foldl (fun s e => putEvent s rid e) s

/-- Processing of one accepted item after the pre-phase (`task_queue.py`
lines 154-438): run the create retry loop (whose course is determined by
the provider's successive responses), then either the exhaustion requeue
or the completion path, then the `finally` progress step.  `finalStatus`
is the status `wait_for_task_completion` eventually returns. -/
def processItem (s : SysState) (item : QueueItem) (provider : Nat → CreateResult)
    (finalStatus : String) (now : Nat) : SysState :=
  let r := createLoop provider
  let s1 := emitWaits s item r.1
  match r.2 with
  | .exhausted => progressPhase (exhaustedPhase s1 item now) item.request_id
  | .created tid => progressPhase (completionPhase s1 item tid finalStatus) item.request_id

/-- The exception path of one item, ending with the same `finally`
progress step. -/
def processItemError (s : SysState) (item : QueueItem) (msg : String) : SysState :=
  progressPhase (errorPhase s item msg) item.request_id

/-- One full worker iteration on the queue head
(the body of the `while True` loop of `worker_process`). -/
def workerStep (s : SysState) (now : Nat) (provider : Nat → CreateResult)
    (finalStatus : String) : SysState :=
  match workerPre s now with
  | .emptyQueue => s
  | .skippedNoChannel s' => s'
  | .deferred s' => s'
  | .cancelledEarly s' => s'
  | .proceed item s' => processItem s' item provider finalStatus now

/-! ## Batch submission (`stream_router.py`, `process_prompts_with_runninghub`)

The route's synchronous part checks only that the script exists (404
otherwise); everything else happens inside the streaming generator.  The
prompt-extraction upstream of the core is out of scope: its output — the
flattened, ordered list of `(episode, scene, prompt_index, prompt)`
candidates — is the submission's input. -/

/-- One extracted prompt candidate, with the positional metadata the
route attaches (`stream_router.py` lines 965-997).  `idx` is the prompt's
position within its scene's list (`enumerate(prompts)`), counted over all
candidates, valid or not. -/
structure PromptSpec where
  episode : String
  episode_key : String
  scene : String
  scene_key : String
  idx : Nat
  prompt : String
deriving DecidableEq, Repr

/-- `prompt.replace('#', '').strip()` (`stream_router.py` line 982). -/
def cleanPrompt (p : String) : String := (p.replace "#" "").trim

/-- A candidate is enqueued iff its cleaned prompt is nonempty
(`stream_router.py` line 983). -/
def validSpec (sp : PromptSpec) : Bool := cleanPrompt sp.prompt != ""

/-- `subtask_id = f"{request_id}_{episode}_{scene}_{idx}"`
(`stream_router.py` line 997). -/
def mkSid (rid : String) (sp : PromptSpec) : String :=
  rid ++ "_" ++ sp.episode ++ "_" ++ sp.scene ++ "_" ++ toString sp.idx

/-- The `task_data` dictionary of a valid candidate
(`stream_router.py` lines 986-993). -/
def mkTaskData (sp : PromptSpec) : TaskData :=
  ⟨sp.episode, sp.episode_key, sp.scene, sp.scene_key, sp.idx, cleanPrompt sp.prompt⟩

/-- The queue item of a valid candidate (`stream_router.py` lines 1003-1008). -/
def mkItem (rid : String) (now : Nat) (sp : PromptSpec) : QueueItem :=
  ⟨rid, mkTaskData sp, now, mkSid rid sp, false⟩

/-- The submission body (`stream_router.py` lines 907-1045): register the
batch's event queue, enqueue every valid candidate (recording it as
`QUEUED`), then register the request metadata with the total task count
and the ordered task-id list.  No check rejects an empty candidate list. -/
def submitBatch (rid : String) (specs : List PromptSpec) (now : Nat) (s : SysState) :
    SysState :=
  let s0 := { s with channels := setA s.channels rid [] }
  let valid := specs.filter validSpec
  let s1 := valid.foldl
    (fun s sp =>
      setStatus { s with queue := s.queue ++ [mkItem rid now sp] }
        (mkSid rid sp) ⟨.queued, rid, mkTaskData sp, none⟩)
    s0
  { s1 with
      metadata := setA s1.metadata rid ⟨valid.length, valid.map (mkSid rid)⟩ }

/-- The whole route: the only synchronous rejection is an unknown script
id (`stream_router.py` lines 900-905); otherwise the submission body runs
and a stream is returned. -/
def submitRoute (scriptFound : Bool) (rid : String) (specs : List PromptSpec)
    (now : Nat) (s : SysState) : Except String SysState :=
  if scriptFound then .ok (submitBatch rid specs now s)
  else .error "未找到剧本"

/-! ## Derived notions used by the analysis -/

/-- Pointwise effect of the cancel route's status-update loop: every task
whose id is in `tasks_to_cancel` has its status field set to `CANCELLED`,
everything else is untouched. -/
def cancelAll (ttc : List String) (l : List (String × TaskInfo)) :
    List (String × TaskInfo) :=
  l.map (fun p => (p.1, if p.1 ∈ ttc then cancelInfo p.2 else p.2))

/-- The provider behaviour with `n` leading capacity rejections followed
by acceptance with task id `tid`. -/
def leadMaxedProvider (n : Nat) (tid : Option String) : Nat → CreateResult :=
  fun i => if i < n then .queueMaxed else .accepted tid

/-- The task id carried by a per-task event; batch-level events
(`progress`, `all_tasks_completed`, `cancel_complete`, `complete`) carry
none. -/
def eventTaskId : Event → Option String
  | .status_evt tid _ => some tid
  | .task_waiting _ _ _ tid _ _ _ => some tid
  | .task_created _ _ _ tid _ => some tid
  | .subtask_completed _ _ _ tid _ _ => some tid
  | .task_error _ _ _ tid _ => some tid
  | .task_cancelled tid => some tid
  | .task_requeued _ _ _ tid => some tid
  | .progress _ _ _ _ => none
  | .all_tasks_completed _ _ _ => none
  | .cancel_complete _ _ => none
  | .complete _ => none

/-- Recognizer of `task_error` events. -/
def isTaskError : Event → Bool
  | .task_error _ _ _ _ _ => true
  | _ => false

/-- Recognizer of `all_tasks_completed` events. -/
def isAllTasksCompleted : Event → Bool
  | .all_tasks_completed _ _ _ => true
  | _ => false

/-! ## Concrete fixtures used by witnesses and counterexamples -/

/-- A representative `task_data` payload. -/
def tdFix : TaskData := ⟨"1", "第1集", "1-1", "场次1-1", 0, "a cat"⟩

/-- The subtask id the submission route would build for `tdFix` under
request `"r1"`. -/
def sidFix : String := "r1_1_1-1_0"

/-- A representative queue item of request `"r1"`. -/
def itemFix : QueueItem := ⟨"r1", tdFix, 0, sidFix, false⟩

/-- The empty system state. -/
def emptySys : SysState := ⟨[], [], [], [], []⟩

/-- Concrete one-completed-job batch used by the C2 witness. -/
def stC2w : SysState :=
  ⟨[], [("r1", [])], [("j1", ⟨.completed, "r1", tdFix, none⟩)], [("r1", ⟨1, ["j1"]⟩)], []⟩

/-- Metadata of `stC2w`. -/
def metaC2w : BatchMeta := ⟨1, ["j1"]⟩

/-- A `task_data` payload of batch `"bbbbbbbbbb"` whose prompt happens to
contain the other batch id `"aaaaaaaaaa"`. -/
def tdPoison : TaskData := ⟨"1", "第1集", "1-1", "场次1-1", 0, "in aaaaaaaaaa style"⟩

/-- A state of batch `"bbbbbbbbbb"` with one requeued-and-waiting job whose
prompt contains the foreign id, sitting in the global queue. -/
def stC8x : SysState :=
  ⟨[⟨"bbbbbbbbbb", tdPoison, 0, "bbbbbbbbbb_1_1-1_0", false⟩], [("bbbbbbbbbb", [])],
    [("bbbbbbbbbb_1_1-1_0", ⟨.waiting, "bbbbbbbbbb", tdPoison, none⟩)], [], []⟩

/-- A state of batch `"bbbbbbbbbb"` with one queued job unrelated to the
id `"aaaaaaaaaa"`. -/
def stC8w : SysState :=
  ⟨[⟨"bbbbbbbbbb", tdFix, 0, "bbbbbbbbbb_1_1-1_0", false⟩], [("bbbbbbbbbb", [])],
    [("bbbbbbbbbb_1_1-1_0", ⟨.queued, "bbbbbbbbbb", tdFix, none⟩)], [], []⟩

/-- A one-job batch about to be processed, used for the C4 trace. -/
def stC4x : SysState :=
  ⟨[itemFix], [("r1", [])], [(sidFix, ⟨.queued, "r1", tdFix, none⟩)],
    [("r1", ⟨1, [sidFix]⟩)], []⟩

/-! ## Association-list lemmas -/

theorem map_eq_self_of {α : Type} {l : List α} {f : α → α}
    (h : ∀ a ∈ l, f a = a) : l.map f = l := by
  induction l with
  | nil => rfl
  | cons a t ih => simp [h a (by simp), ih (fun b hb => h b (by simp [hb]))]

theorem getA_setA_self {α : Type} (l : List (String × α)) (k : String) (v : α) :
    getA (setA l k v) k = some v := by
  induction l with
  | nil => simp [getA, setA]
  | cons p t ih =>
      obtain ⟨k₁, v₁⟩ := p
      by_cases h : k₁ = k
      · simp [setA, h, getA]
      · simp [setA, h, getA, ih]

theorem getA_setA_ne {α : Type} (l : List (String × α)) {k k' : String} (v : α)
    (h : k' ≠ k) : getA (setA l k v) k' = getA l k' := by
  induction l with
  | nil => simp [getA, setA, Ne.symm h]
  | cons p t ih =>
      obtain ⟨k₁, v₁⟩ := p
      by_cases hk : k₁ = k
      · have hkk' : k₁ ≠ k' := by rw [hk]; exact Ne.symm h
        simp [setA, hk, getA, Ne.symm h, hkk']
      · by_cases hk' : k₁ = k'
        · simp [setA, hk, getA, hk', h]
        · simp [setA, hk, getA, hk', ih]

theorem getA_eq_none_iff {α : Type} {l : List (String × α)} {k : String} :
    getA l k = none ↔ k ∉ l.map Prod.fst := by
  induction l with
  | nil => simp [getA]
  | cons p t ih =>
      obtain ⟨k₁, v₁⟩ := p
      by_cases h : k₁ = k
      · simp [getA, h]
      · simp [getA, h, ih, Ne.symm h]

theorem setA_eq_of_getA {α : Type} {l : List (String × α)} {k : String} {v : α}
    (h : getA l k = some v) : setA l k v = l := by
  induction l with
  | nil => simp [getA] at h
  | cons p t ih =>
      obtain ⟨k₁, v₁⟩ := p
      by_cases hk : k₁ = k
      · simp [getA, hk] at h
        simp [setA, hk, h]
      · simp [getA, hk] at h
        simp [setA, hk, ih h]

theorem getA_of_mem_nodup {α : Type} {l : List (String × α)}
    (hnd : (l.map Prod.fst).Nodup) {k : String} {v : α} (hm : (k, v) ∈ l) :
    getA l k = some v := by
  induction l with
  | nil => simp at hm
  | cons p t ih =>
      obtain ⟨k₁, v₁⟩ := p
      simp only [List.map_cons, List.nodup_cons] at hnd
      rcases List.mem_cons.mp hm with h | h
      · injection h with h1 h2
        subst h1
        subst h2
        simp [getA]
      · have hk : k₁ ≠ k := by
          intro hkk
          exact hnd.1 (by
            rw [hkk]
            exact List.mem_map.mpr ⟨(k, v), h, rfl⟩)
        simp [getA, hk, ih hnd.2 h]

theorem snd_eq_of_getA_nodup {α : Type} {l : List (String × α)}
    (hnd : (l.map Prod.fst).Nodup) {k : String} {v v' : α}
    (hmem : (k, v) ∈ l) (h : getA l k = some v') : v = v' := by
  have hg := getA_of_mem_nodup hnd hmem
  rw [hg] at h
  exact Option.some.inj h

theorem setA_eq_map_nodup {α : Type} {l : List (String × α)}
    (hnd : (l.map Prod.fst).Nodup) {k : String} {v₀ : α} (h : getA l k = some v₀)
    (v : α) : setA l k v = l.map (fun p => if p.1 = k then (k, v) else p) := by
  induction l with
  | nil => simp [getA] at h
  | cons p t ih =>
      obtain ⟨k₁, v₁⟩ := p
      simp only [List.map_cons, List.nodup_cons] at hnd
      by_cases hk : k₁ = k
      · have ht : ∀ q ∈ t, q.1 ≠ k := by
          intro q hq hqk
          exact hnd.1 (by
            rw [hk, ← hqk]
            exact List.mem_map.mpr ⟨q, hq, rfl⟩)
        have hmap : t.map (fun p => if p.1 = k then (k, v) else p) = t :=
          map_eq_self_of (fun q hq => by simp [ht q hq])
        simp [setA, hk, hmap]
      · simp [getA, hk] at h
        simp [setA, hk, ih hnd.2 h]

theorem keys_setA_of_getA {α : Type} {l : List (String × α)} {k : String} {v₀ : α}
    (h : getA l k = some v₀) (v : α) :
    (setA l k v).map Prod.fst = l.map Prod.fst := by
  induction l with
  | nil => simp [getA] at h
  | cons p t ih =>
      obtain ⟨k₁, v₁⟩ := p
      by_cases hk : k₁ = k
      · simp [setA, hk]
      · simp [getA, hk] at h
        simp [setA, hk, ih h]

/-! ## State-component lemmas -/

@[simp] theorem putEvent_queue (s : SysState) (r : String) (e : Event) :
    (putEvent s r e).queue = s.queue := by
  unfold putEvent; split <;> rfl

@[simp] theorem putEvent_statuses (s : SysState) (r : String) (e : Event) :
    (putEvent s r e).statuses = s.statuses := by
  unfold putEvent; split <;> rfl

@[simp] theorem putEvent_metadata (s : SysState) (r : String) (e : Event) :
    (putEvent s r e).metadata = s.metadata := by
  unfold putEvent; split <;> rfl

@[simp] theorem putEvent_runninghub (s : SysState) (r : String) (e : Event) :
    (putEvent s r e).runninghub_tasks = s.runninghub_tasks := by
  unfold putEvent; split <;> rfl

theorem getA_putEvent_self {s : SysState} {r : String} {q : List Event} (e : Event)
    (h : getA s.channels r = some q) :
    getA (putEvent s r e).channels r = some (q ++ [e]) := by
  simp [putEvent, h, getA_setA_self]

theorem getA_putEvent_ne {s : SysState} {r r' : String} (e : Event) (h : r' ≠ r) :
    getA (putEvent s r e).channels r' = getA s.channels r' := by
  cases hg : getA s.channels r with
  | some q => simp [putEvent, hg, getA_setA_ne _ _ h]
  | none => simp [putEvent, hg]

theorem isSome_getA_putEvent (s : SysState) (r : String) (e : Event) (r' : String) :
    (getA (putEvent s r e).channels r').isSome = (getA s.channels r').isSome := by
  by_cases h : r' = r
  · subst h
    cases hg : getA s.channels r' with
    | some q => simp [putEvent, hg, getA_setA_self]
    | none => simp [putEvent, hg]
  · rw [getA_putEvent_ne e h]

theorem foldl_putEvent_queue (l : List Event) (rid : String) (s : SysState) :
    (l.foldl (fun s e => putEvent s rid e) s).queue = s.queue := by
  induction l generalizing s with
  | nil => rfl
  | cons e t ih => simp [ih]

theorem foldl_putEvent_statuses (l : List Event) (rid : String) (s : SysState) :
    (l.foldl (fun s e => putEvent s rid e) s).statuses = s.statuses := by
  induction l generalizing s with
  | nil => rfl
  | cons e t ih => simp [ih]

theorem foldl_putEvent_metadata (l : List Event) (rid : String) (s : SysState) :
    (l.foldl (fun s e => putEvent s rid e) s).metadata = s.metadata := by
  induction l generalizing s with
  | nil => rfl
  | cons e t ih => simp [ih]

theorem foldl_putEvent_runninghub (l : List Event) (rid : String) (s : SysState) :
    (l.foldl (fun s e => putEvent s rid e) s).runninghub_tasks = s.runninghub_tasks := by
  induction l generalizing s with
  | nil => rfl
  | cons e t ih => simp [ih]

theorem foldl_putEvent_channel_self (l : List Event) {rid : String} {s : SysState}
    {q : List Event} (h : getA s.channels rid = some q) :
    getA ((l.foldl (fun s e => putEvent s rid e) s)).channels rid = some (q ++ l) := by
  induction l generalizing s q with
  | nil => simpa using h
  | cons e t ih =>
      simp only [List.foldl_cons]
      rw [ih (getA_putEvent_self e h)]
      simp

theorem foldl_putEvent_channel_ne (l : List Event) {rid r' : String} (h : r' ≠ rid)
    (s : SysState) :
    getA ((l.foldl (fun s e => putEvent s rid e) s)).channels r' = getA s.channels r' := by
  induction l generalizing s with
  | nil => rfl
  | cons e t ih =>
      simp only [List.foldl_cons]
      rw [ih, getA_putEvent_ne e h]

@[simp] theorem progressPhase_queue (s : SysState) (rid : String) :
    (progressPhase s rid).queue = s.queue := foldl_putEvent_queue ..

@[simp] theorem progressPhase_statuses (s : SysState) (rid : String) :
    (progressPhase s rid).statuses = s.statuses := foldl_putEvent_statuses ..

@[simp] theorem progressPhase_metadata (s : SysState) (rid : String) :
    (progressPhase s rid).metadata = s.metadata := foldl_putEvent_metadata ..

@[simp] theorem progressPhase_runninghub (s : SysState) (rid : String) :
    (progressPhase s rid).runninghub_tasks = s.runninghub_tasks :=
  foldl_putEvent_runninghub ..

theorem progressPhase_channel_self {s : SysState} {rid : String} {q : List Event}
    (h : getA s.channels rid = some q) :
    getA (progressPhase s rid).channels rid = some (q ++ progressEmits s rid) :=
  foldl_putEvent_channel_self _ h

theorem progressPhase_channel_ne {s : SysState} {rid r' : String} (h : r' ≠ rid) :
    getA (progressPhase s rid).channels r' = getA s.channels r' :=
  foldl_putEvent_channel_ne _ h s

@[simp] theorem setStatus_queue (s : SysState) (sid : String) (i : TaskInfo) :
    (setStatus s sid i).queue = s.queue := rfl

@[simp] theorem setStatus_channels (s : SysState) (sid : String) (i : TaskInfo) :
    (setStatus s sid i).channels = s.channels := rfl

@[simp] theorem setStatus_metadata (s : SysState) (sid : String) (i : TaskInfo) :
    (setStatus s sid i).metadata = s.metadata := rfl

@[simp] theorem setStatus_runninghub (s : SysState) (sid : String) (i : TaskInfo) :
    (setStatus s sid i).runninghub_tasks = s.runninghub_tasks := rfl

theorem getA_setStatus_self (s : SysState) (sid : String) (i : TaskInfo) :
    getA (setStatus s sid i).statuses sid = some i := getA_setA_self ..

theorem getA_setStatus_ne (s : SysState) {sid sid' : String} (i : TaskInfo)
    (h : sid' ≠ sid) :
    getA (setStatus s sid i).statuses sid' = getA s.statuses sid' :=
  getA_setA_ne _ _ h

/-! ## Lemmas on the capacity-exceeded retry phase -/

theorem emitWaits_queue (ws : List Nat) (s : SysState) (item : QueueItem) :
    (emitWaits s item ws).queue = s.queue := by
  induction ws generalizing s with
  | nil => rfl
  | cons w t ih => simp [emitWaits, List.foldl_cons] at ih ⊢; rw [ih]; simp

theorem emitWaits_metadata (ws : List Nat) (s : SysState) (item : QueueItem) :
    (emitWaits s item ws).metadata = s.metadata := by
  induction ws generalizing s with
  | nil => rfl
  | cons w t ih => simp [emitWaits, List.foldl_cons] at ih ⊢; rw [ih]; simp

theorem emitWaits_runninghub (ws : List Nat) (s : SysState) (item : QueueItem) :
    (emitWaits s item ws).runninghub_tasks = s.runninghub_tasks := by
  induction ws generalizing s with
  | nil => rfl
  | cons w t ih => simp [emitWaits, List.foldl_cons] at ih ⊢; rw [ih]; simp

theorem emitWaits_channel_self (ws : List Nat) {s : SysState} {item : QueueItem}
    {q : List Event} (h : getA s.channels item.request_id = some q) :
    getA (emitWaits s item ws).channels item.request_id =
      some (q ++ ws.map (waitingEvent item)) := by
  induction ws generalizing s q with
  | nil => simpa [emitWaits] using h
  | cons w t ih =>
      have hstep : getA (putEvent (setStatus s item.subtask_id
          ⟨.waiting, item.request_id, item.task_data, none⟩) item.request_id
          (waitingEvent item w)).channels item.request_id = some (q ++ [waitingEvent item w]) :=
        getA_putEvent_self _ (by simpa using h)
      simp only [emitWaits, List.foldl_cons] at ih ⊢
      rw [ih hstep]
      simp

theorem emitWaits_channel_ne (ws : List Nat) {item : QueueItem} {r' : String}
    (h : r' ≠ item.request_id) (s : SysState) :
    getA (emitWaits s item ws).channels r' = getA s.channels r' := by
  induction ws generalizing s with
  | nil => rfl
  | cons w t ih =>
      simp only [emitWaits, List.foldl_cons] at ih ⊢
      rw [ih]
      rw [getA_putEvent_ne _ h]
      rfl

theorem emitWaits_statuses_ne (ws : List Nat) {item : QueueItem} {sid : String}
    (h : sid ≠ item.subtask_id) (s : SysState) :
    getA (emitWaits s item ws).statuses sid = getA s.statuses sid := by
  induction ws generalizing s with
  | nil => rfl
  | cons w t ih =>
      simp only [emitWaits, List.foldl_cons] at ih ⊢
      rw [ih]
      simp [getA_setStatus_ne _ _ h, setStatus]
      rw [getA_setA_ne _ _ h]

theorem emitWaits_statuses_self (ws : List Nat) (hne : ws ≠ []) (s : SysState)
    (item : QueueItem) :
    getA (emitWaits s item ws).statuses item.subtask_id =
      some ⟨.waiting, item.request_id, item.task_data, none⟩ := by
  induction ws generalizing s with
  | nil => exact absurd rfl hne
  | cons w t ih =>
      by_cases ht : t = []
      · subst ht
        simp [emitWaits, List.foldl_cons, setStatus, getA_setA_self]
      · simp only [emitWaits, List.foldl_cons] at ih ⊢
        exact ih ht _

theorem createLoopAux_leadMaxed {n : Nat} (tid : Option String) (hn : n < maxRetries) :
    ∀ fuel rc, rc ≤ n → n - rc < fuel →
      createLoopAux (leadMaxedProvider n tid) rc fuel =
        (List.range' (rc + 1) (n - rc), .created tid) := by
  intro fuel
  induction fuel with
  | zero => omega
  | succ f ih =>
      intro rc hrc hfuel
      by_cases heq : rc = n
      · subst heq
        simp [createLoopAux, leadMaxedProvider]
      · have hlt : rc < n := lt_of_le_of_ne hrc heq
        have hnotmax : ¬ maxRetries ≤ rc + 1 := by omega
        have hrec := ih (rc + 1) (by omega) (by omega)
        simp only [createLoopAux, leadMaxedProvider, if_pos hlt, hnotmax, if_false]
        rw [hrec]
        have : n - rc = (n - (rc + 1)) + 1 := by omega
        rw [this, List.range'_succ]

theorem createLoop_leadMaxed {n : Nat} (tid : Option String) (hn : n < maxRetries) :
    createLoop (leadMaxedProvider n tid) = (List.range' 1 n, .created tid) := by
  have := createLoopAux_leadMaxed tid hn maxRetries 0 (by omega) (by omega)
  simpa [createLoop] using this

theorem createLoopAux_allMaxed :
    ∀ fuel rc, rc + fuel = maxRetries → 0 < fuel →
      createLoopAux (fun _ => CreateResult.queueMaxed) rc fuel =
        (List.range' (rc + 1) fuel, .exhausted) := by
  intro fuel
  induction fuel with
  | zero => omega
  | succ f ih =>
      intro rc hsum _
      by_cases hf : f = 0
      · subst hf
        have : maxRetries ≤ rc + 1 := by omega
        simp [createLoopAux, this, List.range']
      · have hnotmax : ¬ maxRetries ≤ rc + 1 := by omega
        have hrec := ih (rc + 1) (by omega) (by omega)
        simp only [createLoopAux, hnotmax, if_false]
        rw [hrec, List.range'_succ]

theorem createLoop_allMaxed :
    createLoop (fun _ => CreateResult.queueMaxed) =
      (List.range' 1 maxRetries, .exhausted) := by
  have := createLoopAux_allMaxed maxRetries 0 (by omega) (by simp [maxRetries])
  simpa [createLoop] using this

theorem createLoopAux_mem_bounds (provider : Nat → CreateResult) :
    ∀ fuel rc, ∀ x ∈ (createLoopAux provider rc fuel).1, rc < x ∧ x ≤ rc + fuel := by
  intro fuel
  induction fuel with
  | zero => intro rc x hx; simp [createLoopAux] at hx
  | succ f ih =>
      intro rc x hx
      simp only [createLoopAux] at hx
      cases hp : provider rc with
      | accepted tid => rw [hp] at hx; simp at hx
      | queueMaxed =>
          rw [hp] at hx
          by_cases hmax : maxRetries ≤ rc + 1
          · simp [hmax] at hx
            omega
          · simp [hmax] at hx
            rcases hx with hx | hx
            · omega
            · have := ih (rc + 1) x hx
              omega

theorem createLoop_mem_bounds (provider : Nat → CreateResult) {x : Nat}
    (hx : x ∈ (createLoop provider).1) : 1 ≤ x ∧ x ≤ maxRetries := by
  have := createLoopAux_mem_bounds provider maxRetries 0 x hx
  omega

/-! ## Lemmas on the cancel route -/

theorem map_congr_mem {α β : Type} {l : List α} {f g : α → β}
    (h : ∀ a ∈ l, f a = g a) : l.map f = l.map g := by
  induction l with
  | nil => rfl
  | cons a t ih => simp [h a (by simp), ih (fun b hb => h b (by simp [hb]))]

theorem filter_idem {α : Type} (p : α → Bool) (l : List α) :
    (l.filter p).filter p = l.filter p := by
  induction l with
  | nil => rfl
  | cons a t ih =>
      by_cases h : p a = true
      · simp [List.filter_cons, h, ih]
      · simp [List.filter_cons, h, ih]

theorem cancelInfo_idem (i : TaskInfo) : cancelInfo (cancelInfo i) = cancelInfo i := rfl

theorem cancelAll_nil (l : List (String × TaskInfo)) : cancelAll [] l = l := by
  simp [cancelAll]

theorem cancelAll_keys (ttc : List String) (l : List (String × TaskInfo)) :
    (cancelAll ttc l).map Prod.fst = l.map Prod.fst := by
  simp [cancelAll, List.map_map]

theorem getA_cancelAll (ttc : List String) (l : List (String × TaskInfo)) (k : String) :
    getA (cancelAll ttc l) k =
      (getA l k).map (fun i => if k ∈ ttc then cancelInfo i else i) := by
  induction l with
  | nil => simp [cancelAll, getA]
  | cons p t ih =>
      obtain ⟨k₁, v₁⟩ := p
      by_cases h : k₁ = k
      · subst h
        simp [cancelAll, getA]
      · simp [cancelAll, getA, h] at ih ⊢
        exact ih

theorem cancelAll_cancelAll (ttc ttc' : List String) (l : List (String × TaskInfo)) :
    cancelAll ttc (cancelAll ttc' l) = cancelAll (ttc' ++ ttc) l := by
  simp only [cancelAll, List.map_map]
  apply map_congr_mem
  intro p _
  by_cases h' : p.1 ∈ ttc'
  · by_cases h : p.1 ∈ ttc <;> simp [Function.comp, h', h, cancelInfo_idem]
  · by_cases h : p.1 ∈ ttc <;> simp [Function.comp, h', h]

theorem cancelAll_idem (ttc : List String) (l : List (String × TaskInfo)) :
    cancelAll ttc (cancelAll ttc l) = cancelAll ttc l := by
  rw [cancelAll_cancelAll]
  simp only [cancelAll]
  apply map_congr_mem
  intro p _
  by_cases h : p.1 ∈ ttc <;> simp [h]

@[simp] theorem cancelOneTask_queue (s : SysState) (sid : String) :
    (cancelOneTask s sid).queue = s.queue := by
  unfold cancelOneTask; split <;> simp

@[simp] theorem cancelOneTask_metadata (s : SysState) (sid : String) :
    (cancelOneTask s sid).metadata = s.metadata := by
  unfold cancelOneTask; split <;> simp

@[simp] theorem cancelOneTask_runninghub (s : SysState) (sid : String) :
    (cancelOneTask s sid).runninghub_tasks = s.runninghub_tasks := by
  unfold cancelOneTask; split <;> simp

theorem cancelOneTask_statuses_keys (s : SysState) (sid : String) :
    (cancelOneTask s sid).statuses.map Prod.fst = s.statuses.map Prod.fst := by
  unfold cancelOneTask
  cases hg : getA s.statuses sid with
  | none => rfl
  | some info => simp [keys_setA_of_getA hg]

theorem cancelOneTask_statuses_nodup {s : SysState} (sid : String)
    (hnd : (s.statuses.map Prod.fst).Nodup) :
    (cancelOneTask s sid).statuses = cancelAll [sid] s.statuses := by
  unfold cancelOneTask
  cases hg : getA s.statuses sid with
  | none =>
      have hnk : sid ∉ s.statuses.map Prod.fst := getA_eq_none_iff.mp hg
      simp only [cancelAll]
      refine (map_eq_self_of ?_).symm
      intro p hp
      have : p.1 ≠ sid := by
        intro h
        exact hnk (h ▸ List.mem_map.mpr ⟨p, hp, rfl⟩)
      simp [this]
  | some info =>
      simp only [putEvent_statuses, setStatus]
      rw [setA_eq_map_nodup hnd hg (cancelInfo info)]
      simp only [cancelAll]
      apply map_congr_mem
      intro p hp
      by_cases h : p.1 = sid
      · have hmem : (sid, p.2) ∈ s.statuses := by
          rw [← h]; exact hp
        have : p.2 = info := snd_eq_of_getA_nodup hnd hmem hg
        simp [h, this]
      · simp [h]

theorem cancelRouteTasks_queue (ttc : List String) (s : SysState) :
    (cancelRouteTasks s ttc).queue = s.queue := by
  induction ttc generalizing s with
  | nil => rfl
  | cons k t ih => simp [cancelRouteTasks, List.foldl_cons] at ih ⊢; rw [ih]; simp

theorem cancelRouteTasks_metadata (ttc : List String) (s : SysState) :
    (cancelRouteTasks s ttc).metadata = s.metadata := by
  induction ttc generalizing s with
  | nil => rfl
  | cons k t ih => simp [cancelRouteTasks, List.foldl_cons] at ih ⊢; rw [ih]; simp

theorem cancelRouteTasks_runninghub (ttc : List String) (s : SysState) :
    (cancelRouteTasks s ttc).runninghub_tasks = s.runninghub_tasks := by
  induction ttc generalizing s with
  | nil => rfl
  | cons k t ih => simp [cancelRouteTasks, List.foldl_cons] at ih ⊢; rw [ih]; simp

theorem cancelRouteTasks_statuses_nodup (ttc : List String) {s : SysState}
    (hnd : (s.statuses.map Prod.fst).Nodup) :
    (cancelRouteTasks s ttc).statuses = cancelAll ttc s.statuses := by
  induction ttc generalizing s with
  | nil => simp [cancelRouteTasks, cancelAll_nil]
  | cons k t ih =>
      have h1 : (cancelOneTask s k).statuses = cancelAll [k] s.statuses :=
        cancelOneTask_statuses_nodup k hnd
      have hnd' : ((cancelOneTask s k).statuses.map Prod.fst).Nodup := by
        rw [cancelOneTask_statuses_keys]; exact hnd
      simp only [cancelRouteTasks, List.foldl_cons] at ih ⊢
      rw [ih hnd', h1, cancelAll_cancelAll]
      rfl

theorem mem_of_getA {α : Type} {l : List (String × α)} {k : String} {v : α}
    (h : getA l k = some v) : (k, v) ∈ l := by
  induction l with
  | nil => simp [getA] at h
  | cons p t ih =>
      obtain ⟨k₁, v₁⟩ := p
      by_cases hk : k₁ = k
      · simp [getA, hk] at h
        simp [hk, h]
      · simp [getA, hk] at h
        simp [ih h]

theorem relatedTask_cancelInfo (rid sid : String) (i : TaskInfo) :
    relatedTask rid sid (cancelInfo i) = relatedTask rid sid i := rfl

theorem tasksToCancel_cancelAll (rid : String) (ttc : List String)
    (l : List (String × TaskInfo)) :
    tasksToCancel rid (cancelAll ttc l) = tasksToCancel rid l := by
  induction l with
  | nil => rfl
  | cons p t ih =>
      have hrel : relatedTask rid p.1 (if p.1 ∈ ttc then cancelInfo p.2 else p.2) =
          relatedTask rid p.1 p.2 := by
        by_cases hc : p.1 ∈ ttc <;> simp [hc, relatedTask_cancelInfo]
      simp only [tasksToCancel, cancelAll, List.map_cons, List.filter_cons] at ih ⊢
      rw [hrel]
      by_cases h : relatedTask rid p.1 p.2 = true
      · simp [h, ih]
      · simp [h, ih]

theorem mem_tasksToCancel_iff {l : List (String × TaskInfo)}
    (hnd : (l.map Prod.fst).Nodup) (rid : String) {sid : String} {info : TaskInfo}
    (h : getA l sid = some info) :
    sid ∈ tasksToCancel rid l ↔ relatedTask rid sid info = true := by
  constructor
  · intro hm
    obtain ⟨p, hp, hfst⟩ := List.mem_map.mp hm
    have hpl : p ∈ l := List.mem_of_mem_filter hp
    have hrel : relatedTask rid p.1 p.2 = true := by
      have := List.of_mem_filter hp
      simpa using this
    have hmem : (sid, p.2) ∈ l := by rw [← hfst]; exact hpl
    have hsnd : p.2 = info := snd_eq_of_getA_nodup hnd hmem h
    rw [← hfst, ← hsnd]
    exact hrel
  · intro hr
    have hmem : (sid, info) ∈ l := mem_of_getA h
    exact List.mem_map.mpr
      ⟨(sid, info), List.mem_filter.mpr ⟨hmem, by simpa using hr⟩, rfl⟩

theorem notifyCancelled_queue (rids : List String) (s : SysState) (cnt : Nat) :
    (notifyCancelled s rids cnt).queue = s.queue := by
  induction rids generalizing s with
  | nil => rfl
  | cons r t ih => simp [notifyCancelled, List.foldl_cons] at ih ⊢; rw [ih]; simp

theorem notifyCancelled_statuses (rids : List String) (s : SysState) (cnt : Nat) :
    (notifyCancelled s rids cnt).statuses = s.statuses := by
  induction rids generalizing s with
  | nil => rfl
  | cons r t ih => simp [notifyCancelled, List.foldl_cons] at ih ⊢; rw [ih]; simp

theorem notifyCancelled_metadata (rids : List String) (s : SysState) (cnt : Nat) :
    (notifyCancelled s rids cnt).metadata = s.metadata := by
  induction rids generalizing s with
  | nil => rfl
  | cons r t ih => simp [notifyCancelled, List.foldl_cons] at ih ⊢; rw [ih]; simp

theorem notifyCancelled_runninghub (rids : List String) (s : SysState) (cnt : Nat) :
    (notifyCancelled s rids cnt).runninghub_tasks = s.runninghub_tasks := by
  induction rids generalizing s with
  | nil => rfl
  | cons r t ih => simp [notifyCancelled, List.foldl_cons] at ih ⊢; rw [ih]; simp

theorem notifyCancelled_channel_ne {rids : List String} {r' : String} (h : r' ∉ rids)
    (s : SysState) (cnt : Nat) :
    getA (notifyCancelled s rids cnt).channels r' = getA s.channels r' := by
  induction rids generalizing s with
  | nil => rfl
  | cons r t ih =>
      have hr : r' ≠ r := by intro he; exact h (by simp [he])
      have ht : r' ∉ t := fun hm => h (by simp [hm])
      simp only [notifyCancelled, List.foldl_cons] at ih ⊢
      rw [ih ht, getA_putEvent_ne _ hr, getA_putEvent_ne _ hr]

theorem getA_cancelOneTask_statuses (s : SysState) (k k₁ : String) :
    getA (cancelOneTask s k).statuses k₁ =
      if k₁ = k then (getA s.statuses k).map cancelInfo else getA s.statuses k₁ := by
  cases hg : getA s.statuses k with
  | none =>
      have he : cancelOneTask s k = s := by simp [cancelOneTask, hg]
      rw [he]
      by_cases hk : k₁ = k
      · subst hk; simp [hg]
      · simp [hk]
  | some info =>
      have he : (cancelOneTask s k).statuses = setA s.statuses k (cancelInfo info) := by
        simp [cancelOneTask, hg, setStatus]
      rw [he]
      by_cases hk : k₁ = k
      · subst hk; simp [getA_setA_self, hg]
      · simp [hk, getA_setA_ne _ _ hk]

theorem getA_cancelOneTask_channels_ne {s : SysState} {k r' : String}
    (h : ∀ info, getA s.statuses k = some info → info.request_id ≠ r') :
    getA (cancelOneTask s k).channels r' = getA s.channels r' := by
  cases hg : getA s.statuses k with
  | none => simp [cancelOneTask, hg]
  | some info =>
      have hne : r' ≠ info.request_id := Ne.symm (h info hg)
      simp [cancelOneTask, hg, getA_putEvent_ne _ hne, setStatus]

theorem cancelRouteTasks_channels_ne (ttc : List String) {r' : String} :
    ∀ s : SysState,
      (∀ k ∈ ttc, ∀ info, getA s.statuses k = some info → info.request_id ≠ r') →
      getA (cancelRouteTasks s ttc).channels r' = getA s.channels r' := by
  induction ttc with
  | nil => intro s _; rfl
  | cons k t ih =>
      intro s h
      have h' : ∀ k' ∈ t, ∀ info,
          getA (cancelOneTask s k).statuses k' = some info → info.request_id ≠ r' := by
        intro k' hk' info hinfo
        rw [getA_cancelOneTask_statuses] at hinfo
        by_cases hkk : k' = k
        · rw [if_pos hkk] at hinfo
          cases hg : getA s.statuses k with
          | none => rw [hg] at hinfo; simp at hinfo
          | some i₀ =>
              rw [hg] at hinfo
              have hco : info = cancelInfo i₀ := by simpa using hinfo.symm
              rw [hco]
              exact h k (by simp) i₀ hg
        · rw [if_neg hkk] at hinfo
          exact h k' (by simp [hk']) info hinfo
      simp only [cancelRouteTasks, List.foldl_cons] at ih ⊢
      rw [ih (cancelOneTask s k) h',
        getA_cancelOneTask_channels_ne (h k (by simp))]

theorem markerUpdate_eq_self {m : List (String × List String)} {rid : String}
    {cur : List String} (hg : getA m rid = some cur)
    (hmem : "CANCELLED_REQUEST" ∈ cur) : markerUpdate m rid = m := by
  unfold markerUpdate
  simp [hg, hmem, setA_eq_of_getA hg]

theorem markerUpdate_mem (m : List (String × List String)) (rid : String) :
    ∃ cur, getA (markerUpdate m rid) rid = some cur ∧ "CANCELLED_REQUEST" ∈ cur := by
  refine ⟨_, getA_setA_self .., ?_⟩
  by_cases h : "CANCELLED_REQUEST" ∈ (getA m rid).getD [] <;> simp [h]

theorem markerUpdate_idem (m : List (String × List String)) (rid : String) :
    markerUpdate (markerUpdate m rid) rid = markerUpdate m rid := by
  obtain ⟨cur, hg, hmem⟩ := markerUpdate_mem m rid
  exact markerUpdate_eq_self hg hmem

theorem cancelRoute_metadata (rid : String) (s : SysState) :
    (cancelRoute rid s).metadata = s.metadata := by
  simp [cancelRoute, notifyCancelled_metadata, addCancelMarker, cancelRouteTasks_metadata]

theorem cancelRoute_queue (rid : String) (s : SysState) :
    (cancelRoute rid s).queue =
      sweepQueue rid (tasksToCancel rid s.statuses) s.queue := by
  simp [cancelRoute, notifyCancelled_queue, addCancelMarker, cancelRouteTasks_queue]

theorem cancelRoute_runninghub (rid : String) (s : SysState) :
    (cancelRoute rid s).runninghub_tasks = markerUpdate s.runninghub_tasks rid := by
  simp [cancelRoute, notifyCancelled_runninghub, addCancelMarker, cancelRouteTasks_runninghub]

theorem cancelRoute_statuses {s : SysState} (rid : String)
    (hnd : (s.statuses.map Prod.fst).Nodup) :
    (cancelRoute rid s).statuses = cancelAll (tasksToCancel rid s.statuses) s.statuses := by
  simp [cancelRoute, notifyCancelled_statuses, addCancelMarker,
    cancelRouteTasks_statuses_nodup _ hnd]

theorem filter_filter_of_imp {α : Type} {P keep : α → Bool} {l : List α}
    (h : ∀ x ∈ l, P x = true → keep x = true) :
    (l.filter keep).filter P = l.filter P := by
  induction l with
  | nil => rfl
  | cons a t ih =>
      have iht := ih (fun x hx => h x (by simp [hx]))
      by_cases hk : keep a = true
      · by_cases hp : P a = true
        · simp [List.filter_cons, hk, hp, iht]
        · simp [List.filter_cons, hk, hp, iht]
      · have hp : P a = false := by
          cases hpa : P a
          · rfl
          · exact absurd (h a (by simp) hpa) hk
        simp [List.filter_cons, hk, hp, iht]

/-! ## Lemmas on the progress step's counters -/

theorem countCW_cons (statuses : List (String × TaskInfo)) (a : String)
    (t : List String) :
    countCW statuses (a :: t) =
      match getA statuses a with
      | some info =>
          if isCompletedOrError info.status then
            ((countCW statuses t).1 + 1, (countCW statuses t).2)
          else if info.status = .waiting then
            ((countCW statuses t).1, (countCW statuses t).2 + 1)
          else countCW statuses t
      | none => countCW statuses t := rfl

theorem countCW_snd_mono (statuses : List (String × TaskInfo)) (a : String)
    (t : List String) :
    (countCW statuses t).2 ≤ (countCW statuses (a :: t)).2 := by
  rw [countCW_cons]
  cases hga : getA statuses a with
  | none => simp
  | some i => cases hs : i.status <;> simp [hs, isCompletedOrError]

theorem countCW_waiting_pos {statuses : List (String × TaskInfo)} {ids : List String}
    {sid : String} {info : TaskInfo} (hin : sid ∈ ids)
    (hg : getA statuses sid = some info) (hw : info.status = .waiting) :
    0 < (countCW statuses ids).2 := by
  induction ids with
  | nil => simp at hin
  | cons a t ih =>
      rcases List.mem_cons.mp hin with h | h
      · subst h
        rw [countCW_cons, hg]
        simp [hw, isCompletedOrError]
      · calc 0 < (countCW statuses t).2 := ih h
          _ ≤ (countCW statuses (a :: t)).2 := countCW_snd_mono statuses a t

theorem countCW_fst_le (statuses : List (String × TaskInfo)) (ids : List String) :
    (countCW statuses ids).1 ≤ ids.length := by
  induction ids with
  | nil => simp [countCW]
  | cons a t ih =>
      rw [countCW_cons]
      cases hga : getA statuses a with
      | none => simp; omega
      | some i => cases hs : i.status <;> simp [hs, isCompletedOrError] <;> omega

theorem countCW_fst_lt_of_cancelled {statuses : List (String × TaskInfo)}
    {ids : List String} {sid : String} {info : TaskInfo} (hnd : ids.Nodup)
    (hin : sid ∈ ids) (hg : getA statuses sid = some info)
    (hc : info.status = .cancelled) :
    (countCW statuses ids).1 < ids.length := by
  induction ids with
  | nil => simp at hin
  | cons a t ih =>
      simp only [List.nodup_cons] at hnd
      rcases List.mem_cons.mp hin with h | h
      · subst h
        rw [countCW_cons, hg]
        have := countCW_fst_le statuses t
        simp [hc, isCompletedOrError]
        omega
      · have hlt := ih hnd.2 h
        rw [countCW_cons]
        cases hga : getA statuses a with
        | none => simp; omega
        | some i => cases hs : i.status <;> simp [hs, isCompletedOrError] <;> omega

/-! ## Event classification lemmas -/

theorem progressEmits_batch_level (s : SysState) (rid : String) :
    ∀ e ∈ progressEmits s rid, eventTaskId e = none ∧ isTaskError e = false := by
  intro e he
  unfold progressEmits at he
  cases hg : getA s.metadata rid with
  | some meta =>
      rw [hg] at he
      simp only [List.mem_append, List.mem_singleton] at he
      rcases he with he | he
      · subst he; exact ⟨rfl, rfl⟩
      · by_cases hc : (countCW s.statuses meta.task_ids).1 = meta.total_tasks ∧
            (countCW s.statuses meta.task_ids).2 = 0
        · rw [if_pos hc] at he
          simp only [List.mem_singleton] at he
          subst he; exact ⟨rfl, rfl⟩
        · rw [if_neg hc] at he
          simp at he
  | none =>
      rw [hg] at he
      simp only [List.mem_append, List.mem_singleton] at he
      set rs := s.statuses.filter (fun p => p.2.request_id == rid) with hrs
      rcases he with he | he
      · subst he; exact ⟨rfl, rfl⟩
      · by_cases hc : (rs.filter (fun p => isCompletedOrError p.2.status)).length = rs.length ∧
            (rs.filter (fun p => p.2.status = .waiting)).length = 0 ∧ 0 < rs.length
        · rw [if_pos hc] at he
          simp only [List.mem_singleton] at he
          subst he; exact ⟨rfl, rfl⟩
        · rw [if_neg hc] at he
          simp at he

/-- In the metadata branch, the progress step emits the `progress` event
and then `all_tasks_completed` exactly under the counter condition. -/
theorem progressEmits_meta {s : SysState} {rid : String} {meta : BatchMeta}
    (hg : getA s.metadata rid = some meta) :
    progressEmits s rid =
      [.progress (countCW s.statuses meta.task_ids).1 meta.total_tasks
          (countCW s.statuses meta.task_ids).2
          (if meta.total_tasks = 0 then 0
           else (countCW s.statuses meta.task_ids).1 * 100 / meta.total_tasks)] ++
        (if (countCW s.statuses meta.task_ids).1 = meta.total_tasks ∧
            (countCW s.statuses meta.task_ids).2 = 0 then
          [.all_tasks_completed rid (countCW s.statuses meta.task_ids).1 meta.total_tasks]
        else []) := by
  unfold progressEmits
  rw [hg]

/-! ## Lemmas on the completion, error and requeue phases -/

@[simp] theorem recordRunninghub_queue (s : SysState) (rid : String) (tid : Option String) :
    (recordRunninghub s rid tid).queue = s.queue := by
  unfold recordRunninghub; cases tid <;> rfl

@[simp] theorem recordRunninghub_channels (s : SysState) (rid : String) (tid : Option String) :
    (recordRunninghub s rid tid).channels = s.channels := by
  unfold recordRunninghub; cases tid <;> rfl

@[simp] theorem recordRunninghub_statuses (s : SysState) (rid : String) (tid : Option String) :
    (recordRunninghub s rid tid).statuses = s.statuses := by
  unfold recordRunninghub; cases tid <;> rfl

@[simp] theorem recordRunninghub_metadata (s : SysState) (rid : String) (tid : Option String) :
    (recordRunninghub s rid tid).metadata = s.metadata := by
  unfold recordRunninghub; cases tid <;> rfl

theorem completionPhase_queue (s : SysState) (item : QueueItem) (tid : Option String)
    (finalStatus : String) : (completionPhase s item tid finalStatus).queue = s.queue := by
  simp [completionPhase]

theorem completionPhase_metadata (s : SysState) (item : QueueItem) (tid : Option String)
    (finalStatus : String) : (completionPhase s item tid finalStatus).metadata = s.metadata := by
  simp [completionPhase]

theorem completionPhase_statuses_self (s : SysState) (item : QueueItem)
    (tid : Option String) (finalStatus : String) :
    getA (completionPhase s item tid finalStatus).statuses item.subtask_id =
      some ⟨.completed, item.request_id, item.task_data, tid⟩ := by
  simp [completionPhase, setStatus, getA_setA_self]

theorem completionPhase_channel_self {s : SysState} {item : QueueItem} {q : List Event}
    (tid : Option String) (finalStatus : String)
    (hq : getA s.channels item.request_id = some q) :
    getA (completionPhase s item tid finalStatus).channels item.request_id =
      some (q ++
        [.task_created item.task_data.episode_key item.task_data.scene_key
            item.task_data.prompt_index item.subtask_id tid,
          .subtask_completed item.task_data.episode_key item.task_data.scene_key
            item.task_data.prompt_index item.subtask_id tid (resultStatus tid finalStatus)]) := by
  unfold completionPhase
  have h1 := getA_putEvent_self
    (.task_created item.task_data.episode_key item.task_data.scene_key
      item.task_data.prompt_index item.subtask_id tid) hq
  have h2 : getA (setStatus (recordRunninghub
      (putEvent s item.request_id
        (.task_created item.task_data.episode_key item.task_data.scene_key
          item.task_data.prompt_index item.subtask_id tid))
      item.request_id tid) item.subtask_id
      ⟨.completed, item.request_id, item.task_data, tid⟩).channels item.request_id =
      some (q ++ [.task_created item.task_data.episode_key item.task_data.scene_key
        item.task_data.prompt_index item.subtask_id tid]) := by
    simpa using h1
  have h3 := getA_putEvent_self
    (.subtask_completed item.task_data.episode_key item.task_data.scene_key
      item.task_data.prompt_index item.subtask_id tid (resultStatus tid finalStatus)) h2
  simpa using h3

theorem errorPhase_statuses_self (s : SysState) (item : QueueItem) (msg : String) :
    getA (errorPhase s item msg).statuses item.subtask_id =
      some ⟨.error, item.request_id, item.task_data, none⟩ := by
  simp [errorPhase, setStatus, getA_setA_self]

theorem errorPhase_channel_self {s : SysState} {item : QueueItem} {q : List Event}
    (msg : String) (hq : getA s.channels item.request_id = some q) :
    getA (errorPhase s item msg).channels item.request_id =
      some (q ++ [.task_error item.task_data.episode_key item.task_data.scene_key
        item.task_data.prompt_index item.subtask_id msg]) := by
  unfold errorPhase
  exact getA_putEvent_self _ (by simpa using hq)

theorem exhaustedPhase_queue (s : SysState) (item : QueueItem) (now : Nat) :
    (exhaustedPhase s item now).queue = s.queue ++ [requeueItem item now] := by
  simp [exhaustedPhase]

theorem exhaustedPhase_statuses (s : SysState) (item : QueueItem) (now : Nat) :
    (exhaustedPhase s item now).statuses = s.statuses := by
  simp [exhaustedPhase]

theorem exhaustedPhase_metadata (s : SysState) (item : QueueItem) (now : Nat) :
    (exhaustedPhase s item now).metadata = s.metadata := by
  simp [exhaustedPhase]

theorem exhaustedPhase_channel_self {s : SysState} {item : QueueItem} {q : List Event}
    (now : Nat) (hq : getA s.channels item.request_id = some q) :
    getA (exhaustedPhase s item now).channels item.request_id =
      some (q ++ [.task_requeued item.task_data.episode_key item.task_data.scene_key
        item.task_data.prompt_index item.subtask_id]) := by
  unfold exhaustedPhase
  exact getA_putEvent_self _ (by simpa using hq)

/-! ## Lemmas on batch submission -/

theorem submitBatch_enqueue_fold (rid : String) (now : Nat) (valid : List PromptSpec) :
    ∀ s : SysState,
      ((valid.foldl
        (fun s sp =>
          setStatus { s with queue := s.queue ++ [mkItem rid now sp] }
            (mkSid rid sp) ⟨.queued, rid, mkTaskData sp, none⟩) s)).queue =
        s.queue ++ valid.map (mkItem rid now) := by
  induction valid with
  | nil => intro s; simp
  | cons sp t ih =>
      intro s
      simp only [List.foldl_cons, List.map_cons]
      rw [ih]
      simp [setStatus]

theorem submitBatch_channels_fold (rid : String) (now : Nat) (valid : List PromptSpec) :
    ∀ s : SysState,
      ((valid.foldl
        (fun s sp =>
          setStatus { s with queue := s.queue ++ [mkItem rid now sp] }
            (mkSid rid sp) ⟨.queued, rid, mkTaskData sp, none⟩) s)).channels =
        s.channels := by
  induction valid with
  | nil => intro s; simp
  | cons sp t ih =>
      intro s
      simp only [List.foldl_cons]
      rw [ih]
      rfl

theorem submitBatch_metadata_self (rid : String) (specs : List PromptSpec) (now : Nat)
    (s : SysState) :
    getA (submitBatch rid specs now s).metadata rid =
      some ⟨(specs.filter validSpec).length, (specs.filter validSpec).map (mkSid rid)⟩ := by
  unfold submitBatch
  exact getA_setA_self ..

theorem submitBatch_queue (rid : String) (specs : List PromptSpec) (now : Nat)
    (s : SysState) :
    (submitBatch rid specs now s).queue =
      s.queue ++ (specs.filter validSpec).map (mkItem rid now) := by
  unfold submitBatch
  simpa using submitBatch_enqueue_fold rid now (specs.filter validSpec) _

theorem submitBatch_channel_self (rid : String) (specs : List PromptSpec) (now : Nat)
    (s : SysState) :
    getA (submitBatch rid specs now s).channels rid = some [] := by
  show getA ((specs.filter validSpec).foldl
      (fun s sp =>
        setStatus { s with queue := s.queue ++ [mkItem rid now sp] }
          (mkSid rid sp) ⟨.queued, rid, mkTaskData sp, none⟩)
      { s with channels := setA s.channels rid [] }).channels rid = some []
  rw [submitBatch_channels_fold]
  exact getA_setA_self ..

/-! ## Claims -/

/-- Claim C10: when a worker dequeues a job whose owning request has no
registered event queue, it silently drops the job: the queue head is
popped (`task_done`) and nothing else happens — the job is not executed,
its status dictionary entry is not touched, no event is emitted anywhere,
and the job is not re-enqueued (`task_queue.py` lines 86-93). -/
theorem C10_missing_channel_drop (s : SysState) (now : Nat) (item : QueueItem)
    (rest : List QueueItem) (hq : s.queue = item :: rest)
    (hch : getA s.channels item.request_id = none) :
    workerPre s now = .skippedNoChannel { s with queue := rest } := by
  unfold workerPre
  rw [hq]
  simp [hch]

/-- Witness for C10 at a concrete state with an unregistered channel. -/
theorem C10_missing_channel_drop_witness :
    workerPre ⟨[itemFix], [], [], [], []⟩ 5 =
      .skippedNoChannel ⟨[], [], [], [], []⟩ :=
  C10_missing_channel_drop ⟨[itemFix], [], [], [], []⟩ 5 itemFix [] rfl rfl

/-- Claim C7: on the capacity-exceeded retry numbered `rc` (1-based), the
computed backoff is `min(30 * rc, 300)` seconds, and exactly this value is
the `wait_seconds` field of the emitted `task_waiting` event; every retry
number the loop produces lies in `1..10` (`task_queue.py` lines 160-200). -/
theorem C7_backoff_formula (s : SysState) (item : QueueItem)
    (provider : Nat → CreateResult) {q : List Event}
    (hq : getA s.channels item.request_id = some q) :
    getA (emitWaits s item (createLoop provider).1).channels item.request_id =
      some (q ++ ((createLoop provider).1).map (fun rc =>
        Event.task_waiting item.task_data.episode_key item.task_data.scene_key
          item.task_data.prompt_index item.subtask_id rc maxRetries
          (min (30 * rc) 300)))
    ∧ ∀ rc ∈ (createLoop provider).1, 1 ≤ rc ∧ rc ≤ 10 := by
  constructor
  · rw [emitWaits_channel_self _ hq]
    rfl
  · exact fun rc h => createLoop_mem_bounds provider h

/-- Witness for C7: two capacity rejections then acceptance. -/
theorem C7_backoff_formula_witness :
    getA (emitWaits ⟨[], [("r1", [])], [], [], []⟩ itemFix
        (createLoop (leadMaxedProvider 2 (some "t1"))).1).channels itemFix.request_id =
      some ([] ++ ((createLoop (leadMaxedProvider 2 (some "t1"))).1).map (fun rc =>
        Event.task_waiting itemFix.task_data.episode_key itemFix.task_data.scene_key
          itemFix.task_data.prompt_index itemFix.subtask_id rc maxRetries
          (min (30 * rc) 300)))
    ∧ ∀ rc ∈ (createLoop (leadMaxedProvider 2 (some "t1"))).1, 1 ≤ rc ∧ rc ≤ 10 :=
  C7_backoff_formula ⟨[], [("r1", [])], [], [], []⟩ itemFix
    (leadMaxedProvider 2 (some "t1")) rfl

/-- Counterexample to claim C3 as stated: with provider final status
`"FAILED"` (a failure), the worker still records the job as `COMPLETED` —
the claim's assertion that a failed provider status is never recorded as
Completed is false (`task_queue.py` lines 316-330). -/
theorem C3_counterexample :
    "FAILED" ∉ successStatuses
    ∧ (getA (completionPhase ⟨[], [("r1", [])], [], [], []⟩ itemFix (some "t7")
          "FAILED").statuses itemFix.subtask_id).map TaskInfo.status =
        some JStatus.completed := by
  constructor
  · decide
  · rw [completionPhase_statuses_self]
    rfl

/-- Claim C3 (amended): after the provider wait returns, the job is always
recorded `COMPLETED`, whatever the final provider status; the
success/failure distinction survives only in the result payload, whose
status is `"SUCCESS"` exactly when a provider task id was extracted and
the final status is one of the success statuses; the job is recorded
`ERROR` exactly on the exception path (`task_queue.py` lines 301-374). -/
theorem C3_completion_recording (s : SysState) (item : QueueItem) (tid : Option String)
    (finalStatus msg : String) {q : List Event}
    (hq : getA s.channels item.request_id = some q) :
    getA (completionPhase s item tid finalStatus).statuses item.subtask_id =
      some ⟨.completed, item.request_id, item.task_data, tid⟩
    ∧ getA (completionPhase s item tid finalStatus).channels item.request_id =
        some (q ++
          [.task_created item.task_data.episode_key item.task_data.scene_key
              item.task_data.prompt_index item.subtask_id tid,
            .subtask_completed item.task_data.episode_key item.task_data.scene_key
              item.task_data.prompt_index item.subtask_id tid
              (resultStatus tid finalStatus)])
    ∧ (resultStatus tid finalStatus = "SUCCESS" ↔
        tid ≠ none ∧ finalStatus ∈ successStatuses)
    ∧ getA (errorPhase s item msg).statuses item.subtask_id =
        some ⟨.error, item.request_id, item.task_data, none⟩ := by
  refine ⟨completionPhase_statuses_self .., completionPhase_channel_self _ _ hq, ?_, errorPhase_statuses_self ..⟩
  cases tid with
  | none =>
      simp [resultStatus]
  | some t =>
      by_cases hmem : finalStatus ∈ successStatuses
      · simp [resultStatus, hmem]
      · simp [resultStatus, hmem]

/-- Witness for C3 (amended) at a success status. -/
theorem C3_completion_recording_witness :
    getA (completionPhase ⟨[], [("r1", [])], [], [], []⟩ itemFix (some "t7")
        "SUCCESS").statuses itemFix.subtask_id =
      some ⟨.completed, itemFix.request_id, itemFix.task_data, some "t7"⟩
    ∧ getA (completionPhase ⟨[], [("r1", [])], [], [], []⟩ itemFix (some "t7")
          "SUCCESS").channels itemFix.request_id =
        some ([] ++
          [.task_created itemFix.task_data.episode_key itemFix.task_data.scene_key
              itemFix.task_data.prompt_index itemFix.subtask_id (some "t7"),
            .subtask_completed itemFix.task_data.episode_key itemFix.task_data.scene_key
              itemFix.task_data.prompt_index itemFix.subtask_id (some "t7")
              (resultStatus (some "t7") "SUCCESS")])
    ∧ (resultStatus (some "t7") "SUCCESS" = "SUCCESS" ↔
        (some "t7" : Option String) ≠ none ∧ "SUCCESS" ∈ successStatuses)
    ∧ getA (errorPhase ⟨[], [("r1", [])], [], [], []⟩ itemFix "boom").statuses
        itemFix.subtask_id =
        some ⟨.error, itemFix.request_id, itemFix.task_data, none⟩ :=
  C3_completion_recording ⟨[], [("r1", [])], [], [], []⟩ itemFix (some "t7")
    "SUCCESS" "boom" rfl

/-- Counterexample to claim C9 as stated: a submission whose candidate
list is empty is not rejected and is not reported as an error — the route
returns the stream, the batch's event channel is registered, and a batch
metadata record with expected total 0 is created
(`stream_router.py` lines 887-1045 contain no non-empty check). -/
theorem C9_counterexample :
    submitRoute true "r1" [] 0 emptySys = .ok (submitBatch "r1" [] 0 emptySys)
    ∧ getA (submitBatch "r1" [] 0 emptySys).metadata "r1" = some ⟨0, []⟩
    ∧ getA (submitBatch "r1" [] 0 emptySys).channels "r1" = some [] := by
  refine ⟨rfl, ?_, ?_⟩
  · exact submitBatch_metadata_self ..
  · exact submitBatch_channel_self ..

/-- Claim C9 (amended): submission never validates non-emptiness — for
every candidate list (empty included) the route registers the event
channel and the metadata record (whose total is the number of valid
candidates) and enqueues exactly the valid candidates in order; the only
synchronous rejection is an unknown script id
(`stream_router.py` lines 900-905, 907-1045). -/
theorem C9_submit_registers (scriptFound : Bool) (rid : String)
    (specs : List PromptSpec) (now : Nat) (s : SysState) :
    (scriptFound = false → submitRoute scriptFound rid specs now s = .error "未找到剧本")
    ∧ submitRoute true rid specs now s = .ok (submitBatch rid specs now s)
    ∧ getA (submitBatch rid specs now s).metadata rid =
        some ⟨(specs.filter validSpec).length, (specs.filter validSpec).map (mkSid rid)⟩
    ∧ (submitBatch rid specs now s).queue =
        s.queue ++ (specs.filter validSpec).map (mkItem rid now)
    ∧ getA (submitBatch rid specs now s).channels rid = some [] := by
  refine ⟨?_, rfl, submitBatch_metadata_self .., submitBatch_queue .., submitBatch_channel_self ..⟩
  intro h
  subst h
  rfl

/-- Witness for C9 (amended) on a one-candidate list. -/
theorem C9_submit_registers_witness :
    (false = false → submitRoute false "r1" [⟨"1", "第1集", "1-1", "场次1-1", 0, "a cat"⟩] 0
        emptySys = .error "未找到剧本")
    ∧ submitRoute true "r1" [⟨"1", "第1集", "1-1", "场次1-1", 0, "a cat"⟩] 0 emptySys =
        .ok (submitBatch "r1" [⟨"1", "第1集", "1-1", "场次1-1", 0, "a cat"⟩] 0 emptySys)
    ∧ getA (submitBatch "r1" [⟨"1", "第1集", "1-1", "场次1-1", 0, "a cat"⟩] 0
          emptySys).metadata "r1" =
        some ⟨(([⟨"1", "第1集", "1-1", "场次1-1", 0, "a cat"⟩] :
              List PromptSpec).filter validSpec).length,
          (([⟨"1", "第1集", "1-1", "场次1-1", 0, "a cat"⟩] :
              List PromptSpec).filter validSpec).map (mkSid "r1")⟩
    ∧ (submitBatch "r1" [⟨"1", "第1集", "1-1", "场次1-1", 0, "a cat"⟩] 0 emptySys).queue =
        emptySys.queue ++ (([⟨"1", "第1集", "1-1", "场次1-1", 0, "a cat"⟩] :
          List PromptSpec).filter validSpec).map (mkItem "r1" 0)
    ∧ getA (submitBatch "r1" [⟨"1", "第1集", "1-1", "场次1-1", 0, "a cat"⟩] 0
          emptySys).channels "r1" = some [] :=
  C9_submit_registers false "r1" [⟨"1", "第1集", "1-1", "场次1-1", 0, "a cat"⟩] 0 emptySys

/-- Claim C6: a job that receives the capacity-exceeded response on all 10
consecutive create calls is not failed: it is re-enqueued at the tail of
the global queue flagged for delayed processing with eligibility time
`now + 600` seconds, its recorded state stays `WAITING`, and the events
pushed for it contain no `task_error` and no completion accounting
(`all_tasks_completed` cannot fire because the job still counts as
waiting) (`task_queue.py` lines 160-235 and 376-415). -/
theorem C6_retry_exhaustion (s : SysState) (item : QueueItem) (finalStatus : String)
    (now : Nat) {q : List Event} {meta : BatchMeta}
    (hq : getA s.channels item.request_id = some q)
    (hmeta : getA s.metadata item.request_id = some meta)
    (hin : item.subtask_id ∈ meta.task_ids) :
    (processItem s item (fun _ => .queueMaxed) finalStatus now).queue =
      s.queue ++ [{ item with added_time := now + 600, retry_after_queue_full := true }]
    ∧ getA (processItem s item (fun _ => .queueMaxed) finalStatus now).statuses
        item.subtask_id = some ⟨.waiting, item.request_id, item.task_data, none⟩
    ∧ (((getA (processItem s item (fun _ => .queueMaxed) finalStatus now).channels
          item.request_id).getD []).drop q.length).all
        (fun e => !isTaskError e && !isAllTasksCompleted e) = true := by
  have hrange_ne : List.range' 1 maxRetries ≠ [] := by decide
  have hred : processItem s item (fun _ => .queueMaxed) finalStatus now =
      progressPhase (exhaustedPhase (emitWaits s item (List.range' 1 maxRetries))
        item now) item.request_id := by
    unfold processItem
    rw [createLoop_allMaxed]
  refine ⟨?_, ?_, ?_⟩
  · rw [hred, progressPhase_queue, exhaustedPhase_queue, emitWaits_queue]
    rfl
  · rw [hred, progressPhase_statuses, exhaustedPhase_statuses]
    exact emitWaits_statuses_self _ hrange_ne s item
  · have h1 : getA (emitWaits s item (List.range' 1 maxRetries)).channels item.request_id =
        some (q ++ (List.range' 1 maxRetries).map (waitingEvent item)) :=
      emitWaits_channel_self _ hq
    have h2 := exhaustedPhase_channel_self now h1
    have h3 := progressPhase_channel_self h2
    rw [hred, h3]
    have hassoc : q ++ (List.range' 1 maxRetries).map (waitingEvent item) ++
        [Event.task_requeued item.task_data.episode_key item.task_data.scene_key
          item.task_data.prompt_index item.subtask_id] ++
        progressEmits (exhaustedPhase (emitWaits s item (List.range' 1 maxRetries))
          item now) item.request_id =
        q ++ ((List.range' 1 maxRetries).map (waitingEvent item) ++
          ([Event.task_requeued item.task_data.episode_key item.task_data.scene_key
            item.task_data.prompt_index item.subtask_id] ++
          progressEmits (exhaustedPhase (emitWaits s item (List.range' 1 maxRetries))
            item now) item.request_id)) := by
      simp [List.append_assoc]
    rw [Option.getD_some, hassoc, List.drop_left]
    have hmeta2 : getA (exhaustedPhase (emitWaits s item (List.range' 1 maxRetries))
        item now).metadata item.request_id = some meta := by
      rw [exhaustedPhase_metadata, emitWaits_metadata]
      exact hmeta
    have hwait : getA (exhaustedPhase (emitWaits s item (List.range' 1 maxRetries))
        item now).statuses item.subtask_id =
        some ⟨.waiting, item.request_id, item.task_data, none⟩ := by
      rw [exhaustedPhase_statuses]
      exact emitWaits_statuses_self _ hrange_ne s item
    have hwpos : 0 < (countCW (exhaustedPhase (emitWaits s item
        (List.range' 1 maxRetries)) item now).statuses meta.task_ids).2 :=
      countCW_waiting_pos hin hwait rfl
    rw [progressEmits_meta hmeta2]
    have hcond : ¬((countCW (exhaustedPhase (emitWaits s item
        (List.range' 1 maxRetries)) item now).statuses meta.task_ids).1 =
          meta.total_tasks ∧
        (countCW (exhaustedPhase (emitWaits s item
          (List.range' 1 maxRetries)) item now).statuses meta.task_ids).2 = 0) := by
      intro hc
      omega
    rw [if_neg hcond]
    rw [List.all_eq_true]
    intro e he
    simp only [List.mem_append, List.mem_singleton] at he
    rcases he with he | he | he | he
    · obtain ⟨rc, _, rfl⟩ := List.mem_map.mp he
      rfl
    · subst he
      rfl
    · subst he
      rfl
    · simp at he

/-- Witness for C6: a single-job batch exhausting all 10 retries. -/
theorem C6_retry_exhaustion_witness :
    (processItem ⟨[], [("r1", [])], [(sidFix, ⟨.processing, "r1", tdFix, none⟩)],
        [("r1", ⟨1, [sidFix]⟩)], []⟩ itemFix (fun _ => .queueMaxed) "SUCCESS" 7).queue =
      [] ++ [{ itemFix with added_time := 7 + 600, retry_after_queue_full := true }]
    ∧ getA (processItem ⟨[], [("r1", [])], [(sidFix, ⟨.processing, "r1", tdFix, none⟩)],
          [("r1", ⟨1, [sidFix]⟩)], []⟩ itemFix (fun _ => .queueMaxed) "SUCCESS" 7).statuses
        itemFix.subtask_id = some ⟨.waiting, itemFix.request_id, itemFix.task_data, none⟩
    ∧ (((getA (processItem ⟨[], [("r1", [])], [(sidFix, ⟨.processing, "r1", tdFix, none⟩)],
            [("r1", ⟨1, [sidFix]⟩)], []⟩ itemFix (fun _ => .queueMaxed) "SUCCESS" 7).channels
          itemFix.request_id).getD []).drop ([] : List Event).length).all
        (fun e => !isTaskError e && !isAllTasksCompleted e) = true :=
  C6_retry_exhaustion ⟨[], [("r1", [])], [(sidFix, ⟨.processing, "r1", tdFix, none⟩)],
      [("r1", ⟨1, [sidFix]⟩)], []⟩ itemFix "SUCCESS" 7 rfl rfl (by decide)

/-- Counterexample to claim C2 as stated: in a two-job batch where one job
ended `CANCELLED` and the other `COMPLETED` — all jobs terminal, none
waiting — the progress step still emits no `all_tasks_completed`, because
the completion counter only counts `COMPLETED`/`ERROR` and can never reach
the expected total (`task_queue.py` lines 390-415). -/
theorem C2_counterexample :
    (getA (⟨[], [("r1", [])],
        [("j1", ⟨.cancelled, "r1", tdFix, none⟩), ("j2", ⟨.completed, "r1", tdFix, none⟩)],
        [("r1", ⟨2, ["j1", "j2"]⟩)], []⟩ : SysState).statuses "j1").map TaskInfo.status =
      some JStatus.cancelled
    ∧ (getA (⟨[], [("r1", [])],
        [("j1", ⟨.cancelled, "r1", tdFix, none⟩), ("j2", ⟨.completed, "r1", tdFix, none⟩)],
        [("r1", ⟨2, ["j1", "j2"]⟩)], []⟩ : SysState).statuses "j2").map TaskInfo.status =
      some JStatus.completed
    ∧ ((getA (progressPhase ⟨[], [("r1", [])],
        [("j1", ⟨.cancelled, "r1", tdFix, none⟩), ("j2", ⟨.completed, "r1", tdFix, none⟩)],
        [("r1", ⟨2, ["j1", "j2"]⟩)], []⟩ "r1").channels "r1").getD []).all
        (fun e => !isAllTasksCompleted e) = true := by
  decide

/-- Claim C2 (amended): the progress step appends its events to the
batch's channel and emits `all_tasks_completed` exactly when the number of
the batch's jobs in `COMPLETED` or `ERROR` equals the expected total and
none is `WAITING`; a job in `CANCELLED` is counted by neither counter, so
a batch (with distinct task ids and the expected total equal to the task
count) containing a cancelled job never receives the event from this
step; there is no emitted-once guard — the condition is re-evaluated on
every run of the progress step (`task_queue.py` lines 380-415). -/
theorem C2_batch_complete_condition (s : SysState) (rid : String) {meta : BatchMeta}
    {q : List Event} (hmeta : getA s.metadata rid = some meta)
    (hq : getA s.channels rid = some q) :
    getA (progressPhase s rid).channels rid = some (q ++ progressEmits s rid)
    ∧ (Event.all_tasks_completed rid (countCW s.statuses meta.task_ids).1 meta.total_tasks
          ∈ progressEmits s rid ↔
        ((countCW s.statuses meta.task_ids).1 = meta.total_tasks ∧
          (countCW s.statuses meta.task_ids).2 = 0))
    ∧ (∀ sid ∈ meta.task_ids, ∀ info, getA s.statuses sid = some info →
        info.status = .cancelled → meta.task_ids.Nodup →
        meta.total_tasks = meta.task_ids.length →
        (countCW s.statuses meta.task_ids).1 ≠ meta.total_tasks) := by
  refine ⟨progressPhase_channel_self hq, ?_, ?_⟩
  · rw [progressEmits_meta hmeta]
    by_cases hcond : (countCW s.statuses meta.task_ids).1 = meta.total_tasks ∧
        (countCW s.statuses meta.task_ids).2 = 0
    · rw [if_pos hcond]
      simp [hcond]
    · rw [if_neg hcond]
      simp [hcond]
  · intro sid hsid info hginfo hcanc hnodup htot
    have := countCW_fst_lt_of_cancelled hnodup hsid hginfo hcanc
    omega

/-- Witness for C2 (amended): a one-job batch whose job completed. -/
theorem C2_batch_complete_condition_witness :
    getA (progressPhase stC2w "r1").channels "r1" =
      some ([] ++ progressEmits stC2w "r1")
    ∧ (Event.all_tasks_completed "r1" (countCW stC2w.statuses metaC2w.task_ids).1
          metaC2w.total_tasks ∈ progressEmits stC2w "r1" ↔
        ((countCW stC2w.statuses metaC2w.task_ids).1 = metaC2w.total_tasks ∧
          (countCW stC2w.statuses metaC2w.task_ids).2 = 0))
    ∧ (∀ sid ∈ metaC2w.task_ids, ∀ info : TaskInfo,
        getA stC2w.statuses sid = some info →
        info.status = .cancelled → metaC2w.task_ids.Nodup →
        metaC2w.total_tasks = metaC2w.task_ids.length →
        (countCW stC2w.statuses metaC2w.task_ids).1 ≠ metaC2w.total_tasks) :=
  C2_batch_complete_condition stC2w "r1" rfl rfl

/-- Counterexample to claim C1 as stated: a job already in the terminal
state `COMPLETED` is moved to `CANCELLED` by the task-cancel route, which
overwrites the status of every matched task unconditionally
(`stream_router.py` lines 1454-1461). -/
theorem C1_counterexample :
    (getA (⟨[], [("r1", [])], [(sidFix, ⟨.completed, "r1", tdFix, some "t3"⟩)], [],
        []⟩ : SysState).statuses sidFix).map TaskInfo.status = some JStatus.completed
    ∧ (getA (cancelRoute "r1" ⟨[], [("r1", [])],
        [(sidFix, ⟨.completed, "r1", tdFix, some "t3"⟩)], [], []⟩).statuses
        sidFix).map TaskInfo.status = some JStatus.cancelled := by
  decide

/-- Claim C1 (amended): the worker's progress-aggregation step never
changes any job's state, but the task-cancel route sets the state of
every job matched by its relatedness test to `CANCELLED` regardless of
the job's current state — including jobs already terminal in `COMPLETED`
or `ERROR` — while leaving unmatched jobs' states unchanged
(`stream_router.py` lines 1361-1388 and 1454-1461,
`task_queue.py` lines 380-438). -/
theorem C1_terminal_overwrite (rid : String) {s : SysState} (sid : String)
    (info : TaskInfo) (hnd : (s.statuses.map Prod.fst).Nodup)
    (hg : getA s.statuses sid = some info) :
    getA (cancelRoute rid s).statuses sid =
      some (if relatedTask rid sid info then cancelInfo info else info)
    ∧ (progressPhase s rid).statuses = s.statuses := by
  constructor
  · have hiff := mem_tasksToCancel_iff hnd rid hg
    rw [cancelRoute_statuses rid hnd, getA_cancelAll, hg]
    by_cases hrel : relatedTask rid sid info = true
    · have hmem : sid ∈ tasksToCancel rid s.statuses := hiff.mpr hrel
      simp [hmem, hrel]
    · have hmem : sid ∉ tasksToCancel rid s.statuses := fun hm => hrel (hiff.mp hm)
      simp [hmem, hrel]
  · exact progressPhase_statuses s rid

/-- Witness for C1 (amended): the route flips a completed matched job to
cancelled. -/
theorem C1_terminal_overwrite_witness :
    getA (cancelRoute "r1" ⟨[], [("r1", [])],
        [(sidFix, ⟨.completed, "r1", tdFix, some "t3"⟩)], [], []⟩).statuses sidFix =
      some (if relatedTask "r1" sidFix ⟨.completed, "r1", tdFix, some "t3"⟩ then
        cancelInfo ⟨.completed, "r1", tdFix, some "t3"⟩
      else ⟨.completed, "r1", tdFix, some "t3"⟩)
    ∧ (progressPhase ⟨[], [("r1", [])],
        [(sidFix, ⟨.completed, "r1", tdFix, some "t3"⟩)], [], []⟩ "r1").statuses =
      (⟨[], [("r1", [])], [(sidFix, ⟨.completed, "r1", tdFix, some "t3"⟩)], [],
        []⟩ : SysState).statuses :=
  C1_terminal_overwrite "r1" sidFix ⟨.completed, "r1", tdFix, some "t3"⟩
    (by decide) rfl

/-- Counterexample to claim C5 as stated: calling the cancel route twice
is observably different from calling it once — the second call pushes a
second round of `task_cancelled`, `cancel_complete` and `complete` events
onto the batch's channel (`stream_router.py` lines 1454-1473 and
1526-1549 run unconditionally on every call). -/
theorem C5_counterexample :
    (cancelRoute "r1" (cancelRoute "r1" ⟨[], [("r1", [])],
        [(sidFix, ⟨.queued, "r1", tdFix, none⟩)], [], []⟩)).channels ≠
      (cancelRoute "r1" ⟨[], [("r1", [])],
        [(sidFix, ⟨.queued, "r1", tdFix, none⟩)], [], []⟩).channels := by
  decide

/-- Claim C5 (amended): calling the cancel route twice leaves the same
final job states, queue contents, cancellation marker and batch metadata
as calling it once, but not the same delivered events — every call
appends its round of cancellation events again, so the channel contents
differ (`stream_router.py` lines 1327-1561). -/
theorem C5_cancel_idempotent_state (rid : String) {s : SysState}
    (hnd : (s.statuses.map Prod.fst).Nodup) :
    (cancelRoute rid (cancelRoute rid s)).statuses = (cancelRoute rid s).statuses
    ∧ (cancelRoute rid (cancelRoute rid s)).queue = (cancelRoute rid s).queue
    ∧ (cancelRoute rid (cancelRoute rid s)).runninghub_tasks =
        (cancelRoute rid s).runninghub_tasks
    ∧ (cancelRoute rid (cancelRoute rid s)).metadata = (cancelRoute rid s).metadata := by
  have hst1 : (cancelRoute rid s).statuses =
      cancelAll (tasksToCancel rid s.statuses) s.statuses := cancelRoute_statuses rid hnd
  have hnd1 : ((cancelRoute rid s).statuses.map Prod.fst).Nodup := by
    rw [hst1, cancelAll_keys]
    exact hnd
  have httc : tasksToCancel rid (cancelRoute rid s).statuses =
      tasksToCancel rid s.statuses := by
    rw [hst1, tasksToCancel_cancelAll]
  refine ⟨?_, ?_, ?_, ?_⟩
  · rw [cancelRoute_statuses rid hnd1, httc, hst1, cancelAll_idem]
  · rw [cancelRoute_queue, httc, cancelRoute_queue]
    exact filter_idem _ _
  · rw [cancelRoute_runninghub, cancelRoute_runninghub, markerUpdate_idem]
  · rw [cancelRoute_metadata, cancelRoute_metadata]

/-- Witness for C5 (amended) on a one-task state. -/
theorem C5_cancel_idempotent_state_witness :
    (cancelRoute "r1" (cancelRoute "r1" ⟨[], [("r1", [])],
        [(sidFix, ⟨.queued, "r1", tdFix, none⟩)], [], []⟩)).statuses =
      (cancelRoute "r1" ⟨[], [("r1", [])],
        [(sidFix, ⟨.queued, "r1", tdFix, none⟩)], [], []⟩).statuses
    ∧ (cancelRoute "r1" (cancelRoute "r1" ⟨[], [("r1", [])],
        [(sidFix, ⟨.queued, "r1", tdFix, none⟩)], [], []⟩)).queue =
      (cancelRoute "r1" ⟨[], [("r1", [])],
        [(sidFix, ⟨.queued, "r1", tdFix, none⟩)], [], []⟩).queue
    ∧ (cancelRoute "r1" (cancelRoute "r1" ⟨[], [("r1", [])],
        [(sidFix, ⟨.queued, "r1", tdFix, none⟩)], [], []⟩)).runninghub_tasks =
      (cancelRoute "r1" ⟨[], [("r1", [])],
        [(sidFix, ⟨.queued, "r1", tdFix, none⟩)], [], []⟩).runninghub_tasks
    ∧ (cancelRoute "r1" (cancelRoute "r1" ⟨[], [("r1", [])],
        [(sidFix, ⟨.queued, "r1", tdFix, none⟩)], [], []⟩)).metadata =
      (cancelRoute "r1" ⟨[], [("r1", [])],
        [(sidFix, ⟨.queued, "r1", tdFix, none⟩)], [], []⟩).metadata :=
  C5_cancel_idempotent_state "r1" (by decide)

theorem filter_eq_self_of {α : Type} {p : α → Bool} {l : List α}
    (h : ∀ a ∈ l, p a = true) : l.filter p = l := by
  induction l with
  | nil => rfl
  | cons a t ih =>
      simp [List.filter_cons, h a (by simp), ih (fun b hb => h b (by simp [hb]))]

theorem filter_eq_nil_of {α : Type} {p : α → Bool} {l : List α}
    (h : ∀ a ∈ l, p a = false) : l.filter p = [] := by
  induction l with
  | nil => rfl
  | cons a t ih =>
      simp [List.filter_cons, h a (by simp), ih (fun b hb => h b (by simp [hb]))]

set_option maxRecDepth 4000 in
/-- Counterexample to claim C8 as stated: batches `"aaaaaaaaaa"` and
`"bbbbbbbbbb"` are distinct, yet cancelling the first also removes the
second batch's queued job from the global queue (and flips its state to
`CANCELLED`), because the route's relatedness test matches any task whose
`str(task_data)` — prompt text included — contains the cancelled id
(`stream_router.py` lines 1376-1383 and 1496-1510). -/
theorem C8_counterexample :
    ("bbbbbbbbbb" : String) ≠ "aaaaaaaaaa"
    ∧ stC8x.queue.length = 1
    ∧ (cancelRoute "aaaaaaaaaa" stC8x).queue = []
    ∧ (getA (cancelRoute "aaaaaaaaaa" stC8x).statuses "bbbbbbbbbb_1_1-1_0").map
        TaskInfo.status = some JStatus.cancelled := by
  decide

/-- Claim C8 (amended): cancelling batch `ridA` leaves every other batch
`ridB` untouched — its queued jobs survive in the same FIFO order, its
tracked job states are unchanged and its event channel receives nothing —
provided none of `ridB`'s jobs is matched by the route's relatedness test
and none of its queued items is swept (its ids neither start with nor are
matched into `tasks_to_cancel` for `ridA`); the containment conditions of
the relatedness test make this a genuine proviso rather than a fact about
all distinct batches (`stream_router.py` lines 1327-1561). -/
theorem C8_cancel_frame (ridA ridB : String) {s : SysState}
    (hnd : (s.statuses.map Prod.fst).Nodup)
    (hne : ridB ≠ ridA)
    (hstat : ∀ p ∈ s.statuses, p.2.request_id = ridB → relatedTask ridA p.1 p.2 = false)
    (hqueue : ∀ t ∈ s.queue, t.request_id = ridB →
        t.subtask_id ∉ tasksToCancel ridA s.statuses ∧
        strStartsWith t.subtask_id ridA = false) :
    (cancelRoute ridA s).queue.filter (fun t => t.request_id == ridB) =
      s.queue.filter (fun t => t.request_id == ridB)
    ∧ (∀ sid : String, ∀ info : TaskInfo, getA s.statuses sid = some info →
        info.request_id = ridB → getA (cancelRoute ridA s).statuses sid = some info)
    ∧ getA (cancelRoute ridA s).channels ridB = getA s.channels ridB := by
  have hK : ∀ k ∈ tasksToCancel ridA s.statuses, ∀ info : TaskInfo,
      getA s.statuses k = some info → info.request_id ≠ ridB := by
    intro k hk info hg hreq
    obtain ⟨p, hp, hfst⟩ := List.mem_map.mp hk
    have hpf := List.mem_filter.mp hp
    have hrel : relatedTask ridA p.1 p.2 = true := by simpa using hpf.2
    have hgp : getA s.statuses p.1 = some p.2 := getA_of_mem_nodup hnd hpf.1
    rw [hfst, hg] at hgp
    have hpi : p.2 = info := (Option.some.inj hgp).symm
    have hfalse := hstat p hpf.1 (by rw [hpi]; exact hreq)
    rw [hfalse] at hrel
    exact absurd hrel (by simp)
  refine ⟨?_, ?_, ?_⟩
  · rw [cancelRoute_queue]
    unfold sweepQueue
    apply filter_filter_of_imp
    intro t ht hP
    have hreq : t.request_id = ridB := by simpa using hP
    obtain ⟨hmem, hsw⟩ := hqueue t ht hreq
    unfold keepInQueue
    simp [hmem, hsw, hreq, hne]
  · intro sid info hg hreq
    rw [cancelRoute_statuses ridA hnd, getA_cancelAll, hg]
    have hnm : sid ∉ tasksToCancel ridA s.statuses := by
      intro hm
      exact hK sid hm info hg hreq
    simp [hnm]
  · have hnotin : ridB ∉ relatedRequestIds ridA s := by
      intro hm
      unfold relatedRequestIds at hm
      rw [List.mem_dedup] at hm
      obtain ⟨sid, hsid, hfm⟩ := List.mem_filterMap.mp hm
      cases hg : getA s.statuses sid with
      | none => rw [hg] at hfm; simp at hfm
      | some i =>
          rw [hg] at hfm
          have hri : i.request_id = ridB := by simpa using hfm
          exact hK sid hsid i hg hri
    show getA (notifyCancelled
        { addCancelMarker (cancelRouteTasks s (tasksToCancel ridA s.statuses)) ridA with
          queue := sweepQueue ridA (tasksToCancel ridA s.statuses)
            (addCancelMarker (cancelRouteTasks s
              (tasksToCancel ridA s.statuses)) ridA).queue }
        (relatedRequestIds ridA s) (tasksToCancel ridA s.statuses).length).channels ridB =
      getA s.channels ridB
    rw [notifyCancelled_channel_ne hnotin]
    show getA (cancelRouteTasks s (tasksToCancel ridA s.statuses)).channels ridB =
      getA s.channels ridB
    exact cancelRouteTasks_channels_ne _ s hK

set_option maxRecDepth 4000 in
/-- Witness for C8 (amended): two unrelated batches. -/
theorem C8_cancel_frame_witness :
    (cancelRoute "aaaaaaaaaa" stC8w).queue.filter
        (fun t => t.request_id == "bbbbbbbbbb") =
      stC8w.queue.filter (fun t => t.request_id == "bbbbbbbbbb")
    ∧ (∀ sid : String, ∀ info : TaskInfo, getA stC8w.statuses sid = some info →
        info.request_id = "bbbbbbbbbb" →
        getA (cancelRoute "aaaaaaaaaa" stC8w).statuses sid = some info)
    ∧ getA (cancelRoute "aaaaaaaaaa" stC8w).channels "bbbbbbbbbb" =
        getA stC8w.channels "bbbbbbbbbb" :=
  C8_cancel_frame "aaaaaaaaaa" "bbbbbbbbbb" (by decide) (by decide) (by decide)
    (by decide)

theorem isRequestCancelled_congr (s s' : SysState)
    (h : s.runninghub_tasks = s'.runninghub_tasks) (rid : String) :
    isRequestCancelled s rid = isRequestCancelled s' rid := by
  unfold isRequestCancelled
  rw [h]

theorem workerPre_proceed {s : SysState} (now : Nat) {item : QueueItem}
    {rest : List QueueItem} {q : List Event} (hq : s.queue = item :: rest)
    (hch : getA s.channels item.request_id = some q)
    (hdef : item.retry_after_queue_full = false)
    (hcan : isRequestCancelled s item.request_id = false) :
    workerPre s now = .proceed item
      (putEvent (setStatus { s with queue := rest } item.subtask_id
          ⟨.processing, item.request_id, item.task_data, none⟩)
        item.request_id (.status_evt item.subtask_id "PROCESSING")) := by
  unfold workerPre
  rw [hq]
  have h1 : (getA ({ s with queue := rest } : SysState).channels
      item.request_id).isNone = false := by
    show (getA s.channels item.request_id).isNone = false
    rw [hch]
    rfl
  have h2 : isRequestCancelled (putEvent (setStatus { s with queue := rest }
      item.subtask_id ⟨.processing, item.request_id, item.task_data, none⟩)
      item.request_id (.status_evt item.subtask_id "PROCESSING"))
      item.request_id = false := by
    rw [isRequestCancelled_congr _ s (by simp) item.request_id]
    exact hcan
  simp [h1, hdef, h2]

/-- Counterexample to claim C4 as stated: with one capacity rejection
before acceptance, the job's `task_waiting` event is published before its
`task_created` event — the claimed order `job_created` first, then
`job_waiting`, is the reverse of what the worker does
(`task_queue.py`: `task_waiting` at lines 190-200 precedes `task_created`
at lines 280-287). -/
theorem C4_counterexample :
    ((getA (workerStep stC4x 0 (leadMaxedProvider 1 (some "t1"))
        "SUCCESS").channels "r1").getD []) =
      [.status_evt sidFix "PROCESSING",
        .task_waiting "第1集" "场次1-1" 0 sidFix 1 10 30,
        .task_created "第1集" "场次1-1" 0 sidFix (some "t1"),
        .subtask_completed "第1集" "场次1-1" 0 sidFix (some "t1") "SUCCESS",
        .progress 1 1 0 100,
        .all_tasks_completed "r1" 1 1]
    ∧ ((getA (workerStep stC4x 0 (leadMaxedProvider 1 (some "t1"))
          "SUCCESS").channels "r1").getD []).indexOf
        (.task_waiting "第1集" "场次1-1" 0 sidFix 1 10 30) <
      ((getA (workerStep stC4x 0 (leadMaxedProvider 1 (some "t1"))
          "SUCCESS").channels "r1").getD []).indexOf
        (.task_created "第1集" "场次1-1" 0 sidFix (some "t1")) := by
  decide

/-- Claim C4 (amended): within one job, the per-job event sequence in the
batch's channel is: the starting `status` event first, then the
`task_waiting` events in retry order, then `task_created`, then exactly
one terminal `subtask_completed` — so every `task_waiting` precedes
`task_created`, not the other way around (`task_queue.py` lines 121, 190,
280, 333). -/
theorem C4_per_job_event_order (s : SysState) (now : Nat) (item : QueueItem)
    (rest : List QueueItem) (n : Nat) (tid : Option String) (finalStatus : String)
    {q : List Event} (hqueue : s.queue = item :: rest)
    (hch : getA s.channels item.request_id = some q)
    (hdef : item.retry_after_queue_full = false)
    (hcan : isRequestCancelled s item.request_id = false)
    (hn : n < maxRetries) :
    (((getA (workerStep s now (leadMaxedProvider n tid) finalStatus).channels
        item.request_id).getD []).drop q.length).filter
      (fun e => eventTaskId e == some item.subtask_id) =
      [.status_evt item.subtask_id "PROCESSING"] ++
        (List.range' 1 n).map (waitingEvent item) ++
        [.task_created item.task_data.episode_key item.task_data.scene_key
            item.task_data.prompt_index item.subtask_id tid,
          .subtask_completed item.task_data.episode_key item.task_data.scene_key
            item.task_data.prompt_index item.subtask_id tid
            (resultStatus tid finalStatus)] := by
  have hpre := workerPre_proceed now hqueue hch hdef hcan
  have hred : workerStep s now (leadMaxedProvider n tid) finalStatus =
      progressPhase (completionPhase (emitWaits (putEvent (setStatus
          { s with queue := rest } item.subtask_id
          ⟨.processing, item.request_id, item.task_data, none⟩)
        item.request_id (.status_evt item.subtask_id "PROCESSING")) item
          (List.range' 1 n)) item tid finalStatus) item.request_id := by
    unfold workerStep
    rw [hpre]
    unfold processItem
    rw [createLoop_leadMaxed tid hn]
  have hch2 : getA (putEvent (setStatus { s with queue := rest } item.subtask_id
      ⟨.processing, item.request_id, item.task_data, none⟩)
      item.request_id (.status_evt item.subtask_id "PROCESSING")).channels
      item.request_id =
      some (q ++ [.status_evt item.subtask_id "PROCESSING"]) :=
    getA_putEvent_self _ (by simpa using hch)
  have hch3 := emitWaits_channel_self (List.range' 1 n) hch2
  have hch4 := completionPhase_channel_self tid finalStatus hch3
  have hch5 := progressPhase_channel_self hch4
  rw [hred, hch5, Option.getD_some]
  have hassoc : q ++ [Event.status_evt item.subtask_id "PROCESSING"] ++
      (List.range' 1 n).map (waitingEvent item) ++
      [Event.task_created item.task_data.episode_key item.task_data.scene_key
          item.task_data.prompt_index item.subtask_id tid,
        Event.subtask_completed item.task_data.episode_key item.task_data.scene_key
          item.task_data.prompt_index item.subtask_id tid
          (resultStatus tid finalStatus)] ++
      progressEmits (completionPhase (emitWaits (putEvent (setStatus
          { s with queue := rest } item.subtask_id
          ⟨.processing, item.request_id, item.task_data, none⟩)
        item.request_id (.status_evt item.subtask_id "PROCESSING")) item
          (List.range' 1 n)) item tid finalStatus) item.request_id =
      q ++ ([Event.status_evt item.subtask_id "PROCESSING"] ++
        ((List.range' 1 n).map (waitingEvent item) ++
        ([Event.task_created item.task_data.episode_key item.task_data.scene_key
            item.task_data.prompt_index item.subtask_id tid,
          Event.subtask_completed item.task_data.episode_key item.task_data.scene_key
            item.task_data.prompt_index item.subtask_id tid
            (resultStatus tid finalStatus)] ++
        progressEmits (completionPhase (emitWaits (putEvent (setStatus
            { s with queue := rest } item.subtask_id
            ⟨.processing, item.request_id, item.task_data, none⟩)
          item.request_id (.status_evt item.subtask_id "PROCESSING")) item
            (List.range' 1 n)) item tid finalStatus) item.request_id))) := by
    simp [List.append_assoc]
  rw [hassoc, List.drop_left]
  rw [List.filter_append, List.filter_append, List.filter_append]
  have hf1 : ([Event.status_evt item.subtask_id "PROCESSING"]).filter
      (fun e => eventTaskId e == some item.subtask_id) =
      [Event.status_evt item.subtask_id "PROCESSING"] :=
    filter_eq_self_of (by intro a ha; simp at ha; subst ha; simp [eventTaskId])
  have hf2 : ((List.range' 1 n).map (waitingEvent item)).filter
      (fun e => eventTaskId e == some item.subtask_id) =
      (List.range' 1 n).map (waitingEvent item) :=
    filter_eq_self_of (by
      intro a ha
      obtain ⟨rc, _, rfl⟩ := List.mem_map.mp ha
      simp [waitingEvent, eventTaskId])
  have hf3 : ([Event.task_created item.task_data.episode_key item.task_data.scene_key
        item.task_data.prompt_index item.subtask_id tid,
      Event.subtask_completed item.task_data.episode_key item.task_data.scene_key
        item.task_data.prompt_index item.subtask_id tid
        (resultStatus tid finalStatus)]).filter
      (fun e => eventTaskId e == some item.subtask_id) =
      [Event.task_created item.task_data.episode_key item.task_data.scene_key
        item.task_data.prompt_index item.subtask_id tid,
      Event.subtask_completed item.task_data.episode_key item.task_data.scene_key
        item.task_data.prompt_index item.subtask_id tid
        (resultStatus tid finalStatus)] :=
    filter_eq_self_of (by
      intro a ha
      simp at ha
      rcases ha with ha | ha <;> subst ha <;> simp [eventTaskId])
  have hf4 : (progressEmits (completionPhase (emitWaits (putEvent (setStatus
        { s with queue := rest } item.subtask_id
        ⟨.processing, item.request_id, item.task_data, none⟩)
      item.request_id (.status_evt item.subtask_id "PROCESSING")) item
        (List.range' 1 n)) item tid finalStatus) item.request_id).filter
      (fun e => eventTaskId e == some item.subtask_id) = [] :=
    filter_eq_nil_of (by
      intro a ha
      have := (progressEmits_batch_level _ _ a ha).1
      rw [this]
      rfl)
  rw [hf1, hf2, hf3, hf4]
  simp

/-- Witness for C4 (amended): two capacity rejections then success. -/
theorem C4_per_job_event_order_witness :
    (((getA (workerStep stC4x 0 (leadMaxedProvider 2 (some "t1"))
        "SUCCESS").channels itemFix.request_id).getD []).drop
        ([] : List Event).length).filter
      (fun e => eventTaskId e == some itemFix.subtask_id) =
      [.status_evt itemFix.subtask_id "PROCESSING"] ++
        (List.range' 1 2).map (waitingEvent itemFix) ++
        [.task_created itemFix.task_data.episode_key itemFix.task_data.scene_key
            itemFix.task_data.prompt_index itemFix.subtask_id (some "t1"),
          .subtask_completed itemFix.task_data.episode_key itemFix.task_data.scene_key
            itemFix.task_data.prompt_index itemFix.subtask_id (some "t1")
            (resultStatus (some "t1") "SUCCESS")] :=
  C4_per_job_event_order stC4x 0 itemFix [] 2 (some "t1") "SUCCESS" rfl rfl rfl rfl
    (by decide)

end ScriptGen

